import Mathlib

set_option maxRecDepth 8000

/-! Shallow embedding of the transaction-ledger core of the repository:
stock reservation and release (routes/sales.js and the sale/reservation
variants in routes/expenses.js), customer aggregate recomputation,
the expense validation state machine, and the timeframe resolver
(routes/entries.js).  Mongo documents become records, collections become
lists, and each route handler becomes a function from a database state and
a request to a result and a new database state. -/

/-- Payment methods of the Sale model enum. -/
inductive PayM
  | cash | card | transfer | other
deriving DecidableEq, Repr

/-- `normalizePaymentMethod` from routes/sales.js (duplicated in
routes/expenses.js).  The raw string input; `""` stands for an absent
(falsy) value, which the code defaults to "cash". -/
def normalizePaymentMethod (pm : String) : PayM :=
  let v := (if pm = "" then "cash" else pm).toLower
  if v = "cash" then .cash
  else if v = "card" then .card
  else if v = "mpesa" ∨ v = "m-pesa" ∨ v = "bank" ∨ v = "transfer" ∨ v = "wire"
      ∨ v = "bank transfer" then .transfer
  else .other

/-- One document of the Product collection; only the fields the stock
ledger touches. -/
structure Product where
  pid : Nat
  pname : String
  stock : Int
deriving DecidableEq, Repr

abbrev ProductDB := List Product

/-- `Product.findById` (read-only). -/
def findProduct (db : ProductDB) (i : Nat) : Option Product :=
  db.find? (fun p => p.pid == i)

/-- The conditional reserve
`Product.findOneAndUpdate(\x7b_id: i, stock: \x7b$gte: q\x7d\x7d, \x7b$inc: \x7bstock: -q\x7d\x7d, \x7bnew: true\x7d)`:
returns the updated document, or `none` leaving the database unchanged
when no document matches (unknown id, or stored stock below `q`). -/
def condReserve : ProductDB → Nat → Int → Option Product × ProductDB
  | [], _, _ => (none, [])
  | p :: rest, i, q =>
    if p.pid = i then
      if q ≤ p.stock then
        let p' := { p with stock := p.stock - q }
        (some p', p' :: rest)
      else (none, p :: rest)
    else
      let r := condReserve rest i q
      (r.1, p :: r.2)

/-- The unconditional increment
`Product.findByIdAndUpdate(i, \x7b$inc: \x7bstock: d\x7d\x7d, \x7bnew: true\x7d)`:
`none` and no change when the id is absent. -/
def incStock : ProductDB → Nat → Int → Option Product × ProductDB
  | [], _, _ => (none, [])
  | p :: rest, i, d =>
    if p.pid = i then
      let p' := { p with stock := p.stock + d }
      (some p', p' :: rest)
    else
      let r := incStock rest i d
      (r.1, p :: r.2)

/-- Stored stock of product `i` (`none` if the product is absent). -/
def stockOf (db : ProductDB) (i : Nat) : Option Int :=
  (findProduct db i).map (·.stock)

/-- Customer contact info as supplied in a request body or stored as a
snapshot on a sale. -/
structure CustInfo where
  cname : String
  phone : String
  email : String
deriving DecidableEq, Repr

/-- One document of the Customer collection.  The phone is the unique
natural key and doubles as the document identity in this model. -/
structure Customer where
  phone : String
  cname : String
  email : String
  totalPurchases : Nat
  totalSpent : Int
  firstPurchaseDate : Option Nat
  lastPurchaseDate : Option Nat
deriving DecidableEq, Repr

abbrev CustomerDB := List Customer

/-- `Customer.findOne(\x7bphone\x7d)`. -/
def findCustomer (db : CustomerDB) (ph : String) : Option Customer :=
  db.find? (fun c => c.phone == ph)

/-- The in-place mutation `updateCustomerData` performs on an existing
customer document before saving it. -/
def bumpCustomer (c : Customer) (cd : CustInfo) (saleTotal : Int) (now : Nat) : Customer :=
  let c1 := { c with
    totalPurchases := c.totalPurchases + 1,
    totalSpent := c.totalSpent + saleTotal,
    lastPurchaseDate := some now }
  let c2 := if cd.cname ≠ "" ∧ c1.cname ≠ cd.cname then { c1 with cname := cd.cname } else c1
  if cd.email ≠ "" ∧ c2.email ≠ cd.email then { c2 with email := cd.email } else c2

/-- The fresh document `updateCustomerData` creates when no customer with
that phone exists. -/
def freshCustomer (cd : CustInfo) (saleTotal : Int) (now : Nat) : Customer :=
  { phone := cd.phone, cname := cd.cname, email := cd.email,
    totalPurchases := 1, totalSpent := saleTotal,
    firstPurchaseDate := some now, lastPurchaseDate := some now }

/-- `updateCustomerData` from routes/sales.js (the same helper appears in
routes/expenses.js): increments the aggregate found by phone, or creates
a fresh one; returns the customer identifier (modelled by the unique
phone). -/
def updateCustomerData (db : CustomerDB) (cd : CustInfo) (saleTotal : Int) (now : Nat) :
    CustomerDB × String :=
  match findCustomer db cd.phone with
  | some c =>
    (db.map (fun x => if x.phone = cd.phone then bumpCustomer c cd saleTotal now else x),
     cd.phone)
  | none =>
    (db ++ [freshCustomer cd saleTotal now], cd.phone)

/-- Status values of the Sale model enum (routes/expenses.js variant of
models/Sale.js; `expenseTag` renders the enum value "expense").
`Option` at use sites models a missing status field. -/
inductive SStatus
  | completed | refunded | pending | voided | corrected | expenseTag
deriving DecidableEq, Repr

/-- Type values of the Sale model enum. -/
inductive SType
  | sale | reservation | expense
deriving DecidableEq, Repr

/-- One line item of a sale, after enrichment. -/
structure Item where
  productId : Nat
  iname : String
  quantity : Int
  price : Int
  total : Int
deriving DecidableEq, Repr

/-- Values a tracked field can take in an edit-history diff. -/
inductive FieldVal
  | vCust (c : CustInfo)
  | vInt (n : Int)
  | vPM (p : PayM)
  | vType (t : SType)
  | vStatus (s : Option SStatus)
deriving DecidableEq, Repr

/-- One from/to pair of an edit-history `changes` map. -/
structure Change where
  field : String
  fromV : FieldVal
  toV : FieldVal
deriving DecidableEq, Repr

/-- One entry of the `editHistory` array of the Sale model. -/
structure EditEntry where
  editedBy : String
  editedAt : Nat
  changes : List Change
  reason : String
deriving DecidableEq, Repr

/-- One document of the Sale collection (fields the claims touch). -/
structure SaleRec where
  sid : Nat
  scustomer : CustInfo
  customerId : Option String
  items : List Item
  subtotal : Int
  total : Int
  paymentMethod : PayM
  status : Option SStatus
  stype : SType
  createdAt : Nat
  editedBy : Option String
  editedAt : Option Nat
  voidedBy : Option String
  voidedAt : Option Nat
  editHistory : List EditEntry
deriving DecidableEq, Repr

/-- `Sale.findById`. -/
def findSale (l : List SaleRec) (i : Nat) : Option SaleRec :=
  l.find? (fun s => s.sid == i)

/-- `Sale.findByIdAndUpdate` (full replacement by the committed record). -/
def saveSale (l : List SaleRec) (i : Nat) (s' : SaleRec) : List SaleRec :=
  l.map (fun s => if s.sid = i then s' else s)

/-- `Sale.findByIdAndDelete`. -/
def removeSale (l : List SaleRec) (i : Nat) : List SaleRec :=
  l.filter (fun s => !(s.sid == i))

/-- The whole mutable database: products, customers, sales. -/
structure DBState where
  products : ProductDB
  customers : CustomerDB
  sales : List SaleRec
deriving DecidableEq, Repr

/-- The Mongo query filter of `recalculateCustomerStats`:
`status: \x7b$in: ["completed", "pending", undefined, null]\x7d` keeps the
documents whose status is completed, pending, or absent. -/
def querySetB (st : Option SStatus) : Bool :=
  st == some .completed || st == some .pending || st == none

/-- The "additional safety filter" of `recalculateCustomerStats`:
status is neither voided nor corrected. -/
def safetyB (st : Option SStatus) : Bool :=
  !(st == some .voided) && !(st == some .corrected)

/-- Sort key of `.sort(\x7bcreatedAt: 1\x7d)`. -/
def saleLE (a b : SaleRec) : Prop := a.createdAt ≤ b.createdAt

instance : DecidableRel saleLE := fun a b => Nat.decLe a.createdAt b.createdAt

instance : IsTotal SaleRec saleLE := ⟨fun a b => Nat.le_total a.createdAt b.createdAt⟩

instance : IsTrans SaleRec saleLE := ⟨fun _ _ _ => Nat.le_trans⟩

/-- `Customer.findByIdAndUpdate` with the four recomputed fields. -/
def updCustomerStats (db : CustomerDB) (cid : String) (tp : Nat) (ts : Int)
    (fp lp : Option Nat) : CustomerDB :=
  db.map (fun c => if c.phone = cid then
    { c with totalPurchases := tp, totalSpent := ts,
             firstPurchaseDate := fp, lastPurchaseDate := lp } else c)

/-- `recalculateCustomerStats` from routes/sales.js: fetch the customer's
sales whose status passes the Mongo `$in` filter, sort ascending by
creation time, apply the safety filter, and either reset the aggregate
(empty set) or replace it with count, summed totals, and the first and
last creation dates of the sorted list. -/
def recalculateCustomerStats (sales : List SaleRec) (customers : CustomerDB)
    (cid : String) : CustomerDB :=
  let fetched := (sales.filter
    (fun s => s.customerId == some cid && querySetB s.status)).insertionSort saleLE
  let validSales := fetched.filter (fun s => safetyB s.status)
  match validSales with
  | [] => updCustomerStats customers cid 0 0 none none
  | v :: vs =>
    updCustomerStats customers cid (v :: vs).length ((v :: vs).map (·.total)).sum
      (some v.createdAt) (some ((vs.getLastD v).createdAt))

/-- A raw request line item (`""` name stands for an absent name). -/
structure ReqItem where
  productId : Nat
  iname : String
  quantity : Int
  price : Int
deriving DecidableEq, Repr

/-- Body of the create request (sale/reservation branch of the POST
handler in routes/expenses.js; routes/sales.js is the `rtype = sale`
special case). -/
structure CreateReq where
  customer : CustInfo
  items : List ReqItem
  paymentMethod : String
  salesPerson : String
  rtype : SType
deriving DecidableEq, Repr

/-- Outcome of the create handler. -/
inductive CreateRes
  | created (s : SaleRec)
  | badRequest (msg : String)
  | conflict (msg : String)
deriving DecidableEq, Repr

/-- The validation/enrichment loop of the create handler: field checks
(note `!price` also rejects a zero price), a product lookup, and the
read-only pre-check `product.stock < quantity`; accumulates enriched
items and the subtotal without writing to the database. -/
def buildEnriched (db : ProductDB) : List ReqItem → Except String (List Item × Int)
  | [] => .ok ([], 0)
  | it :: rest =>
    if it.quantity ≤ 0 ∨ it.price ≤ 0 then
      .error "Each item requires productId, quantity>0, and price>=0"
    else
      match findProduct db it.productId with
      | none => .error "Product not found"
      | some p =>
        if p.stock < it.quantity then
          .error "Insufficient stock"
        else
          match buildEnriched db rest with
          | .error e => .error e
          | .ok (its, sub) =>
            .ok ({ productId := it.productId,
                   iname := if it.iname ≠ "" then it.iname else p.pname,
                   quantity := it.quantity, price := it.price,
                   total := it.price * it.quantity } :: its,
                 it.price * it.quantity + sub)

/-- The stock-decrement loop of the create handler: one conditional
reserve per enriched item, in request order.  Returns the trace of
database states after each conditional-update call, and either the final
database or the database at the failure point — the code answers 409 at
once, with no compensation for the decrements already performed. -/
def reserveLoop : ProductDB → List Item → List ProductDB × Except ProductDB ProductDB
  | db, [] => ([], .ok db)
  | db, it :: rest =>
    let r := condReserve db it.productId it.quantity
    match r.1 with
    | none => ([r.2], .error r.2)
    | some _ =>
      let t := reserveLoop r.2 rest
      (r.2 :: t.1, t.2)

/-- POST / create handler (sale/reservation branch of routes/expenses.js;
with `rtype = sale` it coincides with the routes/sales.js handler up to
the extra reservation fields).  Validates, enriches, updates the customer
aggregate, then runs the conditional stock decrements one item at a time,
and only persists the record when every decrement succeeded. -/
def createSale (st : DBState) (req : CreateReq) (newSid : Nat) (now : Nat) :
    CreateRes × DBState :=
  if req.customer.cname = "" ∨ req.customer.phone = "" then
    (.badRequest "Customer name and phone are required", st)
  else if req.items = [] then
    (.badRequest "Sale must contain at least one item", st)
  else
    match buildEnriched st.products req.items with
    | .error e => (.badRequest e, st)
    | .ok (enriched, subtotal) =>
      let total := subtotal
      let normalizedPM := normalizePaymentMethod req.paymentMethod
      let cu := updateCustomerData st.customers req.customer total now
      let saleRec : SaleRec :=
        { sid := newSid, scustomer := req.customer, customerId := some cu.2,
          items := enriched, subtotal := subtotal, total := total,
          paymentMethod := normalizedPM,
          status := some (if req.rtype = .reservation then .pending else .completed),
          stype := req.rtype, createdAt := now,
          editedBy := none, editedAt := none, voidedBy := none, voidedAt := none,
          editHistory := [] }
      let lp := reserveLoop st.products enriched
      match lp.2 with
      | .error dbFail =>
        (.conflict "Stock changed for an item. Please refresh and try again.",
         { st with products := dbFail, customers := cu.1 })
      | .ok dbOk =>
        (.created saleRec,
         { products := dbOk, customers := cu.1, sales := st.sales ++ [saleRec] })

/-- Acting identity, as the auth middleware exposes it. -/
structure UserCtx where
  role : String
  userId : String
  canValidate : Bool
deriving DecidableEq, Repr

/-- Body of the edit (PUT /:id) request; `""` reason stands for absent. -/
structure EditReq where
  customer : CustInfo
  items : List ReqItem
  paymentMethod : String
  reason : String
deriving DecidableEq, Repr

/-- Outcome of the edit handler. -/
inductive EditRes
  | ok (s : SaleRec)
  | forbidden (msg : String)
  | notFound (msg : String)
  | badRequest (msg : String)
deriving DecidableEq, Repr

/-- The enrichment loop of the edit handler: identical to the create
handler's loop except that it performs no stock pre-check. -/
def buildEnrichedNoStock (db : ProductDB) : List ReqItem → Except String (List Item × Int)
  | [] => .ok ([], 0)
  | it :: rest =>
    if it.quantity ≤ 0 ∨ it.price ≤ 0 then
      .error "Each item requires productId, quantity>0, and price>=0"
    else
      match findProduct db it.productId with
      | none => .error "Product not found"
      | some p =>
        match buildEnrichedNoStock db rest with
        | .error e => .error e
        | .ok (its, sub) =>
          .ok ({ productId := it.productId,
                 iname := if it.iname ≠ "" then it.iname else p.pname,
                 quantity := it.quantity, price := it.price,
                 total := it.price * it.quantity } :: its,
               it.price * it.quantity + sub)

/-- Stock-delta computation of the edit handler: for each new item, the
negated quantity difference against the matching old item (skipped when
zero) or the negated full quantity when the item is new; then a positive
give-back for every removed old item. -/
def computeStockAdjustments (oldItems newItems : List Item) : List (Nat × Int) :=
  (newItems.filterMap (fun ni =>
    match oldItems.find? (fun oi => oi.productId == ni.productId) with
    | some oi =>
      if ni.quantity - oi.quantity ≠ 0
      then some (ni.productId, -(ni.quantity - oi.quantity)) else none
    | none => some (ni.productId, -ni.quantity)))
  ++ (oldItems.filterMap (fun oi =>
    match newItems.find? (fun ni => ni.productId == oi.productId) with
    | some _ => none
    | none => some (oi.productId, oi.quantity)))

/-- The undo pass of the edit handler: `$inc` by the negation of every
adjustment of the whole `stockAdjustments` list — the code iterates the
full list, not only the prefix that was applied.  Returns the write trace
and the final database. -/
def rollbackAll (db : ProductDB) : List (Nat × Int) → List ProductDB × ProductDB
  | [] => ([], db)
  | (i, d) :: rest =>
    let db' := (incStock db i (-d)).2
    let t := rollbackAll db' rest
    (db' :: t.1, t.2)

/-- The adjustment loop of the edit handler: one unconditional `$inc`
per adjustment followed by the post-write check `stock < 0`; on a missing
product or a negative result the undo pass runs over the full list and
the loop reports failure.  Returns the write trace and the outcome. -/
def applyAdjustments (db : ProductDB) (all : List (Nat × Int)) :
    List (Nat × Int) → List ProductDB × Except ProductDB ProductDB
  | [] => ([], .ok db)
  | (i, d) :: rest =>
    let r := incStock db i d
    match r.1 with
    | some p =>
      if p.stock < 0 then
        let rb := rollbackAll r.2 all
        (r.2 :: rb.1, .error rb.2)
      else
        let t := applyAdjustments r.2 all rest
        (r.2 :: t.1, t.2)
    | none =>
      let rb := rollbackAll r.2 all
      (r.2 :: rb.1, .error rb.2)

/-- Change tracking of the edit handler: an entry per tracked field
(customer, total, paymentMethod), recorded only when the committed value
differs from the stored one. -/
def trackChanges (orig : SaleRec) (newCust : CustInfo) (newTotal : Int)
    (newPM : PayM) : List Change :=
  (if orig.scustomer ≠ newCust
   then [⟨"customer", .vCust orig.scustomer, .vCust newCust⟩] else [])
  ++ (if orig.total ≠ newTotal
      then [⟨"total", .vInt orig.total, .vInt newTotal⟩] else [])
  ++ (if orig.paymentMethod ≠ newPM
      then [⟨"paymentMethod", .vPM orig.paymentMethod, .vPM newPM⟩] else [])

/-- PUT /:id edit handler of routes/sales.js: admin gate, state-machine
gate (no voided/corrected edits), enrichment, the stock-delta loop with
its full-list rollback, the audit entry, and the conditional aggregate
recomputation. -/
def editSale (st : DBState) (user : UserCtx) (i : Nat) (req : EditReq) (now : Nat) :
    EditRes × DBState :=
  if user.role ≠ "admin" then (.forbidden "Only admins can edit sales", st)
  else
    match findSale st.sales i with
    | none => (.notFound "Sale not found", st)
    | some originalSale =>
      if originalSale.status = some .voided ∨ originalSale.status = some .corrected then
        (.badRequest "Cannot edit a voided or corrected sale", st)
      else
        let normalizedPM := normalizePaymentMethod req.paymentMethod
        match buildEnrichedNoStock st.products req.items with
        | .error e => (.badRequest e, st)
        | .ok (enriched, subtotal) =>
          let total := subtotal
          let adjs := computeStockAdjustments originalSale.items enriched
          let lp := applyAdjustments st.products adjs adjs
          match lp.2 with
          | .error dbRolled =>
            (.badRequest "Insufficient stock for product update",
             { st with products := dbRolled })
          | .ok db' =>
            let changes := trackChanges originalSale req.customer total normalizedPM
            let entry : EditEntry :=
              { editedBy := user.userId, editedAt := now, changes := changes,
                reason := if req.reason ≠ "" then req.reason else "Sale correction" }
            let sale' := { originalSale with
              scustomer := req.customer, items := enriched, subtotal := subtotal,
              total := total, paymentMethod := normalizedPM,
              editedBy := some user.userId, editedAt := some now,
              editHistory := originalSale.editHistory ++ [entry] }
            let sales' := saveSale st.sales i sale'
            let customers' :=
              if changes.any (fun c => c.field == "customer")
                  ∨ changes.any (fun c => c.field == "total") then
                match originalSale.customerId with
                | some cid => recalculateCustomerStats sales' st.customers cid
                | none => st.customers
              else st.customers
            (.ok sale', { products := db', customers := customers', sales := sales' })

/-- The stock-return loop of the void and delete handlers: a plain
unconditional increment per line item.  Returns the write trace and the
final database. -/
def returnStock (db : ProductDB) : List Item → List ProductDB × ProductDB
  | [] => ([], db)
  | it :: rest =>
    let db' := (incStock db it.productId it.quantity).2
    let t := returnStock db' rest
    (db' :: t.1, t.2)

/-- Outcome of the void handler. -/
inductive VoidRes
  | ok (s : SaleRec)
  | forbidden (msg : String)
  | notFound (msg : String)
  | badRequest (msg : String)
deriving DecidableEq, Repr

/-- PATCH /:id/void of routes/expenses.js (routes/sales.js differs only
by not guarding on the record type): admin gate, already-voided guard,
stock return for item-bearing sales/reservations, status flip with one
audit entry, then aggregate recomputation. -/
def voidSale (st : DBState) (user : UserCtx) (i : Nat) (reason : String) (now : Nat) :
    VoidRes × DBState :=
  if user.role ≠ "admin" then (.forbidden "Only admins can void sales", st)
  else
    match findSale st.sales i with
    | none => (.notFound "Sale not found", st)
    | some sale =>
      if sale.status = some .voided then (.badRequest "Sale is already voided", st)
      else
        let products' :=
          if (sale.stype = .sale ∨ sale.stype = .reservation) ∧ sale.items ≠ [] then
            (returnStock st.products sale.items).2
          else st.products
        let entry : EditEntry :=
          { editedBy := user.userId, editedAt := now,
            changes := [⟨"status", .vStatus sale.status, .vStatus (some .voided)⟩],
            reason := if reason ≠ "" then reason else "Sale voided" }
        let sale' := { sale with
          status := some .voided
          voidedBy := some user.userId
          voidedAt := some now
          editHistory := sale.editHistory ++ [entry] }
        let sales' := saveSale st.sales i sale'
        let customers' :=
          match sale.customerId with
          | some cid =>
            if sale.stype = .sale ∨ sale.stype = .reservation then
              recalculateCustomerStats sales' st.customers cid
            else st.customers
          | none => st.customers
        (.ok sale', { products := products', customers := customers', sales := sales' })

/-- Outcome of the delete handlers. -/
inductive DelRes
  | ok
  | forbidden (msg : String)
  | notFound (msg : String)
deriving DecidableEq, Repr

/-- DELETE /:id of routes/sales.js: removes the record and recomputes the
customer aggregate; it performs no stock return whatsoever. -/
def salesDeleteSale (st : DBState) (i : Nat) : DelRes × DBState :=
  match findSale st.sales i with
  | none => (.notFound "Sale not found", st)
  | some sale =>
    let sales' := removeSale st.sales i
    let customers' :=
      match sale.customerId with
      | some cid => recalculateCustomerStats sales' st.customers cid
      | none => st.customers
    (.ok, { st with sales := sales', customers := customers' })

/-- DELETE /:id of routes/expenses.js: returns stock for an item-bearing
sale/reservation unless it was already voided (the double-return guard),
then removes the record and recomputes the aggregate. -/
def expensesDeleteSale (st : DBState) (user : UserCtx) (i : Nat) : DelRes × DBState :=
  match findSale st.sales i with
  | none => (.notFound "Sale not found", st)
  | some sale =>
    if sale.stype = .reservation ∧ user.role ≠ "admin" then
      (.forbidden "Only admin can delete reservations", st)
    else
      let products' :=
        if (sale.stype = .reservation ∨ sale.stype = .sale) ∧ sale.items ≠ []
            ∧ sale.status ≠ some .voided then
          (returnStock st.products sale.items).2
        else st.products
      let sales' := removeSale st.sales i
      let customers' :=
        match sale.customerId with
        | some cid =>
          if sale.stype = .sale ∨ sale.stype = .reservation then
            recalculateCustomerStats sales' st.customers cid
          else st.customers
        | none => st.customers
      (.ok, { products := products', customers := customers', sales := sales' })

/-- Status values of the Expense model enum. -/
inductive EStatus
  | pending | validated | rejected
deriving DecidableEq, Repr

/-- One document of the Expense collection.  The schema declares no
editHistory field, so the list carried here is never written by any
expense handler; it makes the audit-trail claims statable. -/
structure ExpenseRec where
  eid : Nat
  status : EStatus
  notes : String
  validatedBy : Option String
  validatedAt : Option Nat
  editHistory : List EditEntry
deriving DecidableEq, Repr

/-- Outcome of the expense validate/reject handlers. -/
inductive ExpRes
  | ok (e : ExpenseRec)
  | forbidden (msg : String)
  | notFound (msg : String)
  | badRequest (msg : String)
deriving DecidableEq, Repr

/-- `Expense.findById`. -/
def findExpense (db : List ExpenseRec) (i : Nat) : Option ExpenseRec :=
  db.find? (fun e => e.eid == i)

/-- `Expense.findByIdAndUpdate` (replacement by the committed record). -/
def saveExpense (db : List ExpenseRec) (i : Nat) (e' : ExpenseRec) : List ExpenseRec :=
  db.map (fun e => if e.eid = i then e' else e)

/-- PATCH /:id/validate of routes/expenses.js: privilege gate, guards
against already-validated and rejected expenses, then sets the status and
appends a prose line to `notes` — no editHistory entry is written. -/
def validateExpense (db : List ExpenseRec) (user : UserCtx) (i : Nat)
    (reqValidatedBy notes : String) (now : Nat) : ExpRes × List ExpenseRec :=
  if ¬ user.canValidate then (.forbidden "Insufficient permissions to validate expenses", db)
  else
    match findExpense db i with
    | none => (.notFound "Expense not found", db)
    | some e =>
      if e.status = .validated then (.badRequest "Expense is already validated", db)
      else if e.status = .rejected then (.badRequest "Cannot validate a rejected expense", db)
      else
        let validationNotes :=
          if notes ≠ "" then "Validated: " ++ notes else "Expense validated"
        let updatedNotes :=
          if e.notes ≠ "" then e.notes ++ "\n" ++ validationNotes else validationNotes
        let e' := { e with
          status := .validated
          validatedBy := some (if reqValidatedBy ≠ "" then reqValidatedBy
            else if user.userId ≠ "" then user.userId else "Admin")
          validatedAt := some now
          notes := updatedNotes }
        (.ok e', saveExpense db i e')

/-- PATCH /:id/reject of routes/expenses.js: privilege gate, guards
against already-rejected and validated expenses, requires a non-empty
reason, then sets the status and appends a prose line to `notes`. -/
def rejectExpense (db : List ExpenseRec) (user : UserCtx) (i : Nat)
    (reason notes : String) (now : Nat) : ExpRes × List ExpenseRec :=
  if ¬ user.canValidate then (.forbidden "Insufficient permissions to reject expenses", db)
  else
    match findExpense db i with
    | none => (.notFound "Expense not found", db)
    | some e =>
      if e.status = .rejected then (.badRequest "Expense is already rejected", db)
      else if e.status = .validated then (.badRequest "Cannot reject a validated expense", db)
      else if reason = "" then (.badRequest "Rejection reason is required", db)
      else
        let rejectionNotes :=
          "Rejected: " ++ reason ++ (if notes ≠ "" then " - " ++ notes else "")
        let updatedNotes :=
          if e.notes ≠ "" then e.notes ++ "\n" ++ rejectionNotes else rejectionNotes
        let e' := { e with
          status := .rejected
          validatedBy := some (if user.userId ≠ "" then user.userId else "Admin")
          validatedAt := some now
          notes := updatedNotes }
        (.ok e', saveExpense db i e')

/-- A JS `Date` instant, kept in calendar form (server local time = UTC).
Field order is significant for the chronological comparison. -/
structure DT where
  year : Int
  month : Int
  day : Int
  hour : Int
  minute : Int
  second : Int
  ms : Int
deriving DecidableEq, Repr

/-- Mixed-radix key realizing the chronological order for in-range
calendar values (the order JS `Date` comparison uses). -/
def DT.key (d : DT) : Int :=
  ((((d.year * 13 + d.month) * 32 + d.day) * 24 + d.hour) * 60 + d.minute) * 60000
    + d.second * 1000 + d.ms

/-- JS `startDate > endDate`. -/
def dtGtB (a b : DT) : Bool := b.key < a.key

/-- `setHours(0, 0, 0, 0)`. -/
def startOfDay (d : DT) : DT :=
  { d with hour := 0, minute := 0, second := 0, ms := 0 }

/-- `setHours(23, 59, 59, 999)`. -/
def endOfDay (d : DT) : DT :=
  { d with hour := 23, minute := 59, second := 59, ms := 999 }

/-- `new Date(0)`: the epoch. -/
def epochDT : DT := ⟨1970, 1, 1, 0, 0, 0, 0⟩

/-- Leap-year rule of the Gregorian calendar (as JS `Date` uses). -/
def isLeap (y : Int) : Bool :=
  (y % 4 == 0 && y % 100 != 0) || y % 400 == 0

/-- Days in calendar month `m` (1-12) of year `y`. -/
def daysInMonth (y : Int) (m : Int) : Int :=
  if m = 1 ∨ m = 3 ∨ m = 5 ∨ m = 7 ∨ m = 8 ∨ m = 10 ∨ m = 12 then 31
  else if m = 4 ∨ m = 6 ∨ m = 9 ∨ m = 11 then 30
  else if isLeap y then 29 else 28

/-- JS `new Date(y, mIdx, d)` with a 0-based month index, for the
argument shapes the resolver uses: `mIdx` 0-12 (12 rolls into January of
the next year) and `d` either a valid day or 0 (the last day of the
previous month). -/
def jsMkDate (y mIdx d : Int) : DT :=
  let ny := if 12 ≤ mIdx then y + 1 else y
  let nm := (if 12 ≤ mIdx then mIdx - 12 else mIdx) + 1
  if d = 0 then
    if nm = 1 then ⟨ny - 1, 12, 31, 0, 0, 0, 0⟩
    else ⟨ny, nm - 1, daysInMonth ny (nm - 1), 0, 0, 0, 0⟩
  else ⟨ny, nm, d, 0, 0, 0, 0⟩

/-- Numeric value of a decimal digit character, `none` otherwise. -/
def digitVal (c : Char) : Option Nat :=
  if '0' ≤ c ∧ c ≤ '9' then some (c.toNat - '0'.toNat) else none

/-- Folds the maximal remaining digit run onto an already-read value. -/
def digitsAcc (acc : Nat) : List Char → Nat
  | [] => acc
  | c :: rest =>
    match digitVal c with
    | none => acc
    | some v => digitsAcc (acc * 10 + v) rest

/-- Maximal leading digit run, as JS `parseInt(s, 10)` reads it
(`none` when the first character is not a digit). -/
def takeDigits : List Char → Option Nat
  | [] => none
  | c :: rest => (digitVal c).map (fun v => digitsAcc v rest)

/-- JS `parseInt(s, 10)`: skip leading whitespace, read an optional sign
and then a maximal digit run; `none` models `NaN`. -/
def jsParseInt (s : String) : Option Int :=
  let rec go : List Char → Option Int
    | [] => none
    | c :: rest =>
      if c = ' ' then go rest
      else if c = '-' then (takeDigits rest).map (fun n => -(n : Int))
      else if c = '+' then (takeDigits rest).map (fun n => (n : Int))
      else (takeDigits (c :: rest)).map (fun n => (n : Int))
  go s.data

/-- JS `new Date(s)` on a strict `YYYY-MM-DD` string: the ISO date-only
parse, yielding midnight of that calendar day; `none` models an Invalid
Date (wrong shape, or out-of-range month or day). -/
def jsParseDateYMD (s : String) : Option DT :=
  match s.data with
  | [y1, y2, y3, y4, h1, m1, m2, h2, d1, d2] =>
    if h1 = '-' ∧ h2 = '-' then
      match digitVal y1, digitVal y2, digitVal y3, digitVal y4,
            digitVal m1, digitVal m2, digitVal d1, digitVal d2 with
      | some a, some b, some c, some d, some e, some f, some g, some h =>
        let y : Int := ((a * 10 + b) * 10 + c) * 10 + d
        let m : Int := e * 10 + f
        let dy : Int := g * 10 + h
        if 1 ≤ m ∧ m ≤ 12 ∧ 1 ≤ dy ∧ dy ≤ daysInMonth y m then
          some ⟨y, m, dy, 0, 0, 0, 0⟩
        else none
      | _, _, _, _, _, _, _, _ => none
    else none
  | _ => none

/-- `parseDate` from routes/entries.js (duplicated in routes/expenses.js):
parse the string and set the start-of-day or end-of-day boundary; an
unparsable string throws, modelled by `Except.error`. -/
def parseDateE (s : String) (isEndDate : Bool) : Except String DT :=
  match jsParseDateYMD s with
  | none => .error ("Invalid date format: " ++ s ++ ". Use YYYY-MM-DD format.")
  | some d => .ok (if isEndDate then endOfDay d else startOfDay d)

/-- The optional timeframe hints of a query string; `some ""` is falsy in
the JS truthiness tests, exactly like an absent parameter. -/
structure TQuery where
  tfrom : Option String
  tto : Option String
  tdate : Option String
  tyear : Option String
  tmonth : Option String
deriving DecidableEq, Repr

/-- JS truthiness of an optional query-string value. -/
def truthy : Option String → Bool
  | none => false
  | some s => s ≠ ""

/-- The resolved interval: `createdAt` between `gte` and `lte`. -/
structure TimeFilter where
  gte : DT
  lte : DT
deriving DecidableEq, Repr

/-- `buildTimeframeFilter` from routes/entries.js (duplicated in
routes/expenses.js): priority order custom range, then single day, then
year+month, then year, then default today; validation failures throw,
modelled by `Except.error`.  `now` is the instant `new Date()` returns. -/
def buildTimeframeFilter (q : TQuery) (now : DT) : Except String TimeFilter :=
  if truthy q.tfrom || truthy q.tto then
    match (if truthy q.tfrom then parseDateE (q.tfrom.getD "") false else .ok epochDT) with
    | .error e => .error e
    | .ok startDate =>
      match (if truthy q.tto then parseDateE (q.tto.getD "") true else .ok now) with
      | .error e => .error e
      | .ok endDate =>
        if truthy q.tfrom ∧ truthy q.tto ∧ dtGtB startDate endDate then
          .error "Start date (from) must be before or equal to end date (to)"
        else .ok ⟨startDate, endDate⟩
  else if truthy q.tdate then
    match parseDateE (q.tdate.getD "") false with
    | .error e => .error e
    | .ok dayDate => .ok ⟨dayDate, endOfDay dayDate⟩
  else if truthy q.tyear ∧ truthy q.tmonth then
    let ys := q.tyear.getD ""
    let ms := q.tmonth.getD ""
    let yearNum := jsParseInt ys
    let monthNum := (jsParseInt ms).map (· - 1)
    match yearNum with
    | none => .error ("Invalid year: " ++ ys ++ ". Must be between 2000-2100.")
    | some y =>
      if y < 2000 ∨ y > 2100 then
        .error ("Invalid year: " ++ ys ++ ". Must be between 2000-2100.")
      else
        match monthNum with
        | none => .error ("Invalid month: " ++ ms ++ ". Must be between 01-12.")
        | some m =>
          if m < 0 ∨ m > 11 then
            .error ("Invalid month: " ++ ms ++ ". Must be between 01-12.")
          else
            .ok ⟨jsMkDate y m 1, endOfDay (jsMkDate y (m + 1) 0)⟩
  else if truthy q.tyear then
    let ys := q.tyear.getD ""
    match jsParseInt ys with
    | none => .error ("Invalid year: " ++ ys ++ ". Must be between 2000-2100.")
    | some y =>
      if y < 2000 ∨ y > 2100 then
        .error ("Invalid year: " ++ ys ++ ". Must be between 2000-2100.")
      else
        .ok ⟨jsMkDate y 0 1, endOfDay (jsMkDate y 11 31)⟩
  else
    .ok ⟨startOfDay now, endOfDay now⟩

/-- Lookup of a tracked sale field by its edit-history diff name. -/
def fieldOf (s : SaleRec) : String → Option FieldVal
  | "customer" => some (.vCust s.scustomer)
  | "total" => some (.vInt s.total)
  | "paymentMethod" => some (.vPM s.paymentMethod)
  | "status" => some (.vStatus s.status)
  | _ => none

/-- Two-sale scenario for the aggregate-fold witness: one valid sale of
total 100 and one voided sale of total 50 for counterparty "c". -/
def c5Sales : List SaleRec :=
  [⟨1, ⟨"N", "c", ""⟩, some "c", [], 100, 100, .cash, some .completed, .sale, 10,
    none, none, none, none, []⟩,
   ⟨2, ⟨"N", "c", ""⟩, some "c", [], 50, 50, .cash, some .voided, .sale, 20,
    none, none, none, none, []⟩]

/-- The customer table for the aggregate-fold witness. -/
def c5Customers : CustomerDB := [⟨"c", "N", "", 7, 999, some 1, some 2⟩]

theorem bumpCustomer_phone (c : Customer) (cd : CustInfo) (t : Int) (n : Nat) :
    (bumpCustomer c cd t n).phone = c.phone := by
  simp only [bumpCustomer]
  split <;> split <;> rfl

theorem bumpCustomer_totalPurchases (c : Customer) (cd : CustInfo) (t : Int) (n : Nat) :
    (bumpCustomer c cd t n).totalPurchases = c.totalPurchases + 1 := by
  simp only [bumpCustomer]
  split <;> split <;> rfl

theorem bumpCustomer_totalSpent (c : Customer) (cd : CustInfo) (t : Int) (n : Nat) :
    (bumpCustomer c cd t n).totalSpent = c.totalSpent + t := by
  simp only [bumpCustomer]
  split <;> split <;> rfl

theorem bumpCustomer_lastPurchaseDate (c : Customer) (cd : CustInfo) (t : Int) (n : Nat) :
    (bumpCustomer c cd t n).lastPurchaseDate = some n := by
  simp only [bumpCustomer]
  split <;> split <;> rfl

/-- Replacing the first-found customer record in place is visible to a
subsequent lookup, provided the replacement keeps the phone. -/
theorem findCustomer_map_replace (db : CustomerDB) (ph : String) (f : Customer → Customer)
    (hf : ∀ x, x.phone = ph → (f x).phone = ph) (c : Customer)
    (h : findCustomer db ph = some c) :
    findCustomer (db.map (fun x => if x.phone = ph then f x else x)) ph = some (f c) := by
  induction db with
  | nil => simp [findCustomer] at h
  | cons x rest ih =>
    by_cases hx : x.phone = ph
    · have hfind : findCustomer (x :: rest) ph = some x := by
        simp [findCustomer, List.find?_cons_of_pos, hx]
      rw [hfind] at h
      cases h
      simp only [List.map_cons, if_pos hx, findCustomer]
      rw [List.find?_cons_of_pos]
      simp [hf c hx]
    · have hfind : findCustomer (x :: rest) ph = findCustomer rest ph := by
        simp [findCustomer, List.find?_cons_of_neg, hx]
      rw [hfind] at h
      simp only [List.map_cons, if_neg hx, findCustomer]
      rw [List.find?_cons_of_neg]
      · exact ih h
      · simp [hx]

/-- `findCustomer` after `updateCustomerData` on an existing customer. -/
theorem findCustomer_updateCustomerData_some (db : CustomerDB) (cd : CustInfo)
    (t : Int) (n : Nat) (c : Customer) (h : findCustomer db cd.phone = some c) :
    findCustomer (updateCustomerData db cd t n).1 cd.phone = some (bumpCustomer c cd t n) := by
  have hcp : c.phone = cd.phone := by
    have := List.find?_some h
    simpa using this
  unfold updateCustomerData
  rw [h]
  exact findCustomer_map_replace db cd.phone _
    (fun x _ => by rw [bumpCustomer_phone]; exact hcp) c h

/-- `findCustomer` after `updateCustomerData` on a fresh phone. -/
theorem findCustomer_updateCustomerData_none (db : CustomerDB) (cd : CustInfo)
    (t : Int) (n : Nat) (h : findCustomer db cd.phone = none) :
    findCustomer (updateCustomerData db cd t n).1 cd.phone
      = some (freshCustomer cd t n) := by
  unfold updateCustomerData
  rw [h]
  simp only [findCustomer] at h ⊢
  rw [List.find?_append, h]
  simp [freshCustomer]

theorem condReserve_none_eq (db : ProductDB) (i : Nat) (q : Int)
    (h : (condReserve db i q).1 = none) : (condReserve db i q).2 = db := by
  induction db with
  | nil => rfl
  | cons p rest ih =>
    by_cases hp : p.pid = i
    · by_cases hq : q ≤ p.stock
      · simp [condReserve, hp, hq] at h
      · simp [condReserve, hp, hq]
    · simp only [condReserve, if_neg hp] at h ⊢
      rw [ih h]

theorem condReserve_nonneg (db : ProductDB) (i : Nat) (q : Int)
    (hdb : ∀ x ∈ db, 0 ≤ x.stock) :
    ∀ x ∈ (condReserve db i q).2, 0 ≤ x.stock := by
  induction db with
  | nil => intro x hx; simp [condReserve] at hx
  | cons p rest ih =>
    intro x hx
    by_cases hp : p.pid = i
    · by_cases hq : q ≤ p.stock
      · simp only [condReserve, if_pos hp, if_pos hq, List.mem_cons] at hx
        rcases hx with hx | hx
        · subst hx; simpa using Int.sub_nonneg.mpr hq
        · exact hdb x (List.mem_cons_of_mem p hx)
      · simp only [condReserve, if_pos hp, if_neg hq] at hx
        exact hdb x hx
    · simp only [condReserve, if_neg hp, List.mem_cons] at hx
      rcases hx with hx | hx
      · subst hx; exact hdb x (List.mem_cons_self x rest)
      · exact ih (fun y hy => hdb y (List.mem_cons_of_mem p hy)) x hx

theorem incStock_nonneg (db : ProductDB) (i : Nat) (d : Int) (hd : 0 ≤ d)
    (hdb : ∀ x ∈ db, 0 ≤ x.stock) :
    ∀ x ∈ (incStock db i d).2, 0 ≤ x.stock := by
  induction db with
  | nil => intro x hx; simp [incStock] at hx
  | cons p rest ih =>
    intro x hx
    by_cases hp : p.pid = i
    · simp only [incStock, if_pos hp, List.mem_cons] at hx
      rcases hx with hx | hx
      · subst hx
        simpa using Int.add_nonneg (hdb p (List.mem_cons_self p rest)) hd
      · exact hdb x (List.mem_cons_of_mem p hx)
    · simp only [incStock, if_neg hp, List.mem_cons] at hx
      rcases hx with hx | hx
      · subst hx; exact hdb x (List.mem_cons_self x rest)
      · exact ih (fun y hy => hdb y (List.mem_cons_of_mem p hy)) x hx

theorem reserveLoop_trace_nonneg (items : List Item) (db : ProductDB)
    (hdb : ∀ x ∈ db, 0 ≤ x.stock) :
    ∀ db' ∈ (reserveLoop db items).1, ∀ x ∈ db', 0 ≤ x.stock := by
  induction items generalizing db with
  | nil => intro db' h; simp [reserveLoop] at h
  | cons it rest ih =>
    intro db' h
    simp only [reserveLoop] at h
    rcases hr : (condReserve db it.productId it.quantity).1 with _ | p
    · rw [hr] at h
      simp only [List.mem_singleton] at h
      subst h
      exact condReserve_nonneg db it.productId it.quantity hdb
    · rw [hr] at h
      simp only [List.mem_cons] at h
      rcases h with h | h
      · subst h
        exact condReserve_nonneg db it.productId it.quantity hdb
      · exact ih _ (condReserve_nonneg db it.productId it.quantity hdb) db' h

theorem returnStock_trace_nonneg (items : List Item) (db : ProductDB)
    (hdb : ∀ x ∈ db, 0 ≤ x.stock) (hq : ∀ it ∈ items, 0 ≤ it.quantity) :
    ∀ db' ∈ (returnStock db items).1, ∀ x ∈ db', 0 ≤ x.stock := by
  induction items generalizing db with
  | nil => intro db' h; simp [returnStock] at h
  | cons it rest ih =>
    intro db' h
    simp only [returnStock, List.mem_cons] at h
    have hstep : ∀ x ∈ (incStock db it.productId it.quantity).2, 0 ≤ x.stock :=
      incStock_nonneg db it.productId it.quantity
        (hq it (List.mem_cons_self it rest)) hdb
    rcases h with h | h
    · subst h; exact hstep
    · exact ih _ hstep (fun j hj => hq j (List.mem_cons_of_mem it hj)) db' h

/-- C1: the create handler reserves items one at a time with a
conditional decrement, but on a failed decrement it returns the 409
error immediately, leaving the decrements already performed for earlier
items of the same request in place.  Concretely: with product 1 holding
5 units, a two-line sale asking 3 + 3 units passes the read-only
pre-check, decrements stock to 2 on the first line, fails on the second
line, and returns the conflict error with stock left at 2 (not restored
to 5) and no sale record persisted — refuting the claimed all-or-nothing
unwinding (the customer aggregate increment is also visible). -/
theorem C1_create_stock_failure_keeps_earlier_decrements :
    createSale ⟨[⟨1, "p1", 5⟩], [], []⟩
        ⟨⟨"Alice", "0700", ""⟩, [⟨1, "", 3, 10⟩, ⟨1, "", 3, 10⟩], "", "Bob", .sale⟩ 7 100
      = (.conflict "Stock changed for an item. Please refresh and try again.",
         ⟨[⟨1, "p1", 2⟩], [⟨"0700", "Alice", "", 1, 60, some 100, some 100⟩], []⟩)
    ∧ stockOf [⟨1, "p1", 5⟩] 1 = some 5
    ∧ stockOf [⟨1, "p1", 2⟩] 1 = some 2
    ∧ (2 : Int) ≠ 5 := by
  refine ⟨by decide, rfl, rfl, by decide⟩

/-- C2 counterexample: during an edit, the unconditional `$inc`
adjustments drive a stored stock value negative before the post-write
check catches it.  With product 1 at 1 unit, editing its quantity from 1
to 3 (and adding 2 units of product 2) computes the adjustments
(1, -2), (2, -2); the write trace of the adjustment loop passes through
a state in which product 1 stores -1 — so the stored stock is negative
at that point, refuting "never negative at any point". -/
theorem C2_counterexample_edit_transient_negative_stock :
    buildEnrichedNoStock [⟨1, "p1", 1⟩, ⟨2, "p2", 10⟩] [⟨1, "", 3, 10⟩, ⟨2, "", 2, 10⟩]
      = .ok ([⟨1, "p1", 3, 10, 30⟩, ⟨2, "p2", 2, 10, 20⟩], 50)
    ∧ computeStockAdjustments [⟨1, "p1", 1, 10, 10⟩]
        [⟨1, "p1", 3, 10, 30⟩, ⟨2, "p2", 2, 10, 20⟩] = [(1, -2), (2, -2)]
    ∧ [⟨1, "p1", -1⟩, ⟨2, "p2", 10⟩]
        ∈ (applyAdjustments [⟨1, "p1", 1⟩, ⟨2, "p2", 10⟩]
            [(1, -2), (2, -2)] [(1, -2), (2, -2)]).1
    ∧ stockOf [⟨1, "p1", -1⟩, ⟨2, "p2", 10⟩] 1 = some (-1)
    ∧ ((-1 : Int) < 0)
    ∧ (editSale ⟨[⟨1, "p1", 1⟩, ⟨2, "p2", 10⟩],
          [⟨"0700", "Alice", "", 1, 10, some 50, some 50⟩],
          [⟨5, ⟨"Alice", "0700", ""⟩, some "0700", [⟨1, "p1", 1, 10, 10⟩], 10, 10, .cash,
            some .completed, .sale, 50, none, none, none, none, []⟩]⟩
          ⟨"admin", "u1", true⟩ 5
          ⟨⟨"Alice", "0700", ""⟩, [⟨1, "", 3, 10⟩, ⟨2, "", 2, 10⟩], "", ""⟩ 99).1
        = .badRequest "Insufficient stock for product update" := by
  refine ⟨rfl, by decide, by decide, rfl, by decide, by decide⟩

/-- C2 (amended): outside the edit handler the claim holds — the create
handler's conditional decrement never drives a stored stock negative and
a failed reservation leaves the database unchanged; the stock-return
loops of the void and delete handlers preserve non-negativity as well.
(The edit handler is the exception, per the counterexample.) -/
theorem C2_stock_nonnegative_outside_edit :
    (∀ db (i : Nat) (q : Int), (condReserve db i q).1 = none →
      (condReserve db i q).2 = db)
    ∧ (∀ db (i : Nat) (q : Int), (∀ x ∈ db, 0 ≤ x.stock) →
        ∀ x ∈ (condReserve db i q).2, 0 ≤ x.stock)
    ∧ (∀ (items : List Item) db, (∀ x ∈ db, 0 ≤ x.stock) →
        ∀ db' ∈ (reserveLoop db items).1, ∀ x ∈ db', 0 ≤ x.stock)
    ∧ (∀ (items : List Item) db, (∀ x ∈ db, 0 ≤ x.stock) →
        (∀ it ∈ items, 0 ≤ it.quantity) →
        ∀ db' ∈ (returnStock db items).1, ∀ x ∈ db', 0 ≤ x.stock) :=
  ⟨condReserve_none_eq, condReserve_nonneg, reserveLoop_trace_nonneg,
   returnStock_trace_nonneg⟩

/-- C2 witness: the amended theorem applied at concrete inputs — a
rejected reservation of 9 from 5 units leaves the database unchanged,
and the successful one-item reserve loop for 3 of 5 units passes only
through non-negative states. -/
theorem C2_stock_nonnegative_outside_edit_witness :
    ((condReserve [⟨1, "p", 5⟩] 1 9).1 = none → (condReserve [⟨1, "p", 5⟩] 1 9).2 = [⟨1, "p", 5⟩])
    ∧ (∀ db' ∈ (reserveLoop [⟨1, "p", 5⟩] [⟨1, "p", 3, 2, 6⟩]).1, ∀ x ∈ db', 0 ≤ x.stock) :=
  ⟨fun h => C2_stock_nonnegative_outside_edit.1 [⟨1, "p", 5⟩] 1 9 h,
   C2_stock_nonnegative_outside_edit.2.2.1 [⟨1, "p", 3, 2, 6⟩] [⟨1, "p", 5⟩] (by decide)⟩

/-- C3: the edit handler computes the per-product signed delta correctly,
but on failure its rollback loop reverses the whole adjustment list,
including adjustments that were never applied.  Concretely: editing the
sale [(p1, qty 1)] to [(p1, qty 3), (p2, qty 2)] with p1 at 1 unit and
p2 at 10 computes adjustments [(1, -2), (2, -2)]; the first write makes
p1 negative, the loop fails, and the rollback adds +2 to both products —
p2, whose adjustment was never applied, ends at 12 instead of its
pre-edit 10, refuting "a failed edit leaves every product's stock equal
to its pre-edit value" exactly as the code's own comment ("Rollback
previous adjustments") intends it. -/
theorem C3_edit_failed_rollback_corrupts_unapplied_adjustments :
    computeStockAdjustments [⟨1, "p1", 1, 10, 10⟩]
        [⟨1, "p1", 3, 10, 30⟩, ⟨2, "p2", 2, 10, 20⟩] = [(1, -2), (2, -2)]
    ∧ editSale ⟨[⟨1, "p1", 1⟩, ⟨2, "p2", 10⟩],
          [⟨"0700", "Alice", "", 1, 10, some 50, some 50⟩],
          [⟨5, ⟨"Alice", "0700", ""⟩, some "0700", [⟨1, "p1", 1, 10, 10⟩], 10, 10, .cash,
            some .completed, .sale, 50, none, none, none, none, []⟩]⟩
          ⟨"admin", "u1", true⟩ 5
          ⟨⟨"Alice", "0700", ""⟩, [⟨1, "", 3, 10⟩, ⟨2, "", 2, 10⟩], "", ""⟩ 99
        = (.badRequest "Insufficient stock for product update",
           ⟨[⟨1, "p1", 1⟩, ⟨2, "p2", 12⟩],
            [⟨"0700", "Alice", "", 1, 10, some 50, some 50⟩],
            [⟨5, ⟨"Alice", "0700", ""⟩, some "0700", [⟨1, "p1", 1, 10, 10⟩], 10, 10, .cash,
              some .completed, .sale, 50, none, none, none, none, []⟩]⟩)
    ∧ stockOf [⟨1, "p1", 1⟩, ⟨2, "p2", 10⟩] 2 = some 10
    ∧ stockOf [⟨1, "p1", 1⟩, ⟨2, "p2", 12⟩] 2 = some 12
    ∧ (12 : Int) ≠ 10 := by
  refine ⟨by decide, by decide, rfl, rfl, by decide⟩


/-- C4 counterexample: the routes/sales.js delete handler removes a
never-voided, item-bearing sale without performing any stock return.
With product 1 at 5 units and a completed sale holding 2 units, deleting
leaves stock at 5, whereas the stock-return that voiding performs would
have produced 7 — refuting "deleting a record that was never voided
performs the same stock-return as voiding". -/
theorem C4_counterexample_sales_delete_returns_no_stock :
    salesDeleteSale ⟨[⟨1, "p", 5⟩], [],
        [⟨5, ⟨"Alice", "0700", ""⟩, none, [⟨1, "p", 2, 10, 20⟩], 20, 20, .cash,
          some .completed, .sale, 50, none, none, none, none, []⟩]⟩ 5
      = (.ok, ⟨[⟨1, "p", 5⟩], [], []⟩)
    ∧ (returnStock [⟨1, "p", 5⟩] [⟨1, "p", 2, 10, 20⟩]).2 = [⟨1, "p", 7⟩]
    ∧ stockOf [⟨1, "p", 5⟩] 1 = some 5
    ∧ (5 : Int) ≠ 7 := by
  refine ⟨by decide, by decide, rfl, by decide⟩

/-- C4 (amended): stock reversal happens exactly once per transaction in
the void handler and the routes/expenses.js delete handler — voiding a
non-voided sale/reservation releases every line-item quantity, a second
void attempt is rejected with no state change, the expenses-variant
delete performs the same stock-return as voiding unless the record was
already voided (in which case it releases nothing) — but the
routes/sales.js delete handler never returns stock at all. -/
theorem C4_void_delete_stock_reversal_once :
    (∀ st user (i : Nat) (reason : String) (now : Nat) s,
      user.role = "admin" → findSale st.sales i = some s →
      s.status ≠ some SStatus.voided → (s.stype = .sale ∨ s.stype = .reservation) →
      s.items ≠ [] →
      ∃ s', (voidSale st user i reason now).1 = .ok s' ∧ s'.status = some .voided ∧
        (voidSale st user i reason now).2.products = (returnStock st.products s.items).2)
    ∧ (∀ st user (i : Nat) (reason : String) (now : Nat) s,
        user.role = "admin" → findSale st.sales i = some s →
        s.status = some SStatus.voided →
        voidSale st user i reason now = (.badRequest "Sale is already voided", st))
    ∧ (∀ st user (i : Nat) s,
        findSale st.sales i = some s →
        ¬(s.stype = .reservation ∧ user.role ≠ "admin") →
        (s.stype = .reservation ∨ s.stype = .sale) → s.items ≠ [] →
        s.status ≠ some SStatus.voided →
        (expensesDeleteSale st user i).1 = .ok
        ∧ (expensesDeleteSale st user i).2.products = (returnStock st.products s.items).2
        ∧ (expensesDeleteSale st user i).2.sales = removeSale st.sales i)
    ∧ (∀ st user (i : Nat) s,
        findSale st.sales i = some s →
        ¬(s.stype = .reservation ∧ user.role ≠ "admin") →
        s.status = some SStatus.voided →
        (expensesDeleteSale st user i).1 = .ok
        ∧ (expensesDeleteSale st user i).2.products = st.products
        ∧ (expensesDeleteSale st user i).2.sales = removeSale st.sales i)
    ∧ (∀ st (i : Nat), (salesDeleteSale st i).2.products = st.products) := by
  refine ⟨?_, ?_, ?_, ?_, ?_⟩
  · intro st user i reason now s hrole hfind hstat hstype hitems
    simp only [voidSale, hfind, hrole, ne_eq, not_true_eq_false, if_false, if_neg hstat]
    rw [if_pos (show (s.stype = SType.sale ∨ s.stype = SType.reservation) ∧ ¬s.items = [] from
      ⟨hstype, hitems⟩)]
    exact ⟨_, rfl, rfl, rfl⟩
  · intro st user i reason now s hrole hfind hstat
    simp only [voidSale, hfind, hrole, ne_eq, not_true_eq_false, if_false, if_pos hstat]
  · intro st user i s hfind hperm hstype hitems hstat
    simp only [expensesDeleteSale, hfind, if_neg hperm]
    rw [if_pos (show (s.stype = SType.reservation ∨ s.stype = SType.sale) ∧ ¬s.items = []
        ∧ ¬s.status = some SStatus.voided from ⟨hstype, hitems, hstat⟩)]
    refine ⟨?_, ?_, ?_⟩ <;> (first | exact trivial | rfl)
  · intro st user i s hfind hperm hstat
    simp only [expensesDeleteSale, hfind, if_neg hperm]
    rw [if_neg (show ¬((s.stype = SType.reservation ∨ s.stype = SType.sale) ∧ ¬s.items = []
        ∧ ¬s.status = some SStatus.voided) by simp [hstat])]
    refine ⟨?_, ?_, ?_⟩ <;> (first | exact trivial | rfl)
  · intro st i
    unfold salesDeleteSale
    rcases h : findSale st.sales i with _ | s
    · rfl
    · rfl

/-- C4 witness: the amended theorem applied to a concrete state — voiding
a completed one-item sale returns its stock, and the sales-variant delete
leaves products untouched. -/
theorem C4_void_delete_stock_reversal_once_witness :
    (∃ s', (voidSale ⟨[⟨1, "p", 5⟩], [],
        [⟨5, ⟨"Alice", "0700", ""⟩, none, [⟨1, "p", 2, 10, 20⟩], 20, 20, .cash,
          some .completed, .sale, 50, none, none, none, none, []⟩]⟩
        ⟨"admin", "u1", true⟩ 5 "" 60).1 = .ok s' ∧ s'.status = some .voided ∧
      (voidSale ⟨[⟨1, "p", 5⟩], [],
        [⟨5, ⟨"Alice", "0700", ""⟩, none, [⟨1, "p", 2, 10, 20⟩], 20, 20, .cash,
          some .completed, .sale, 50, none, none, none, none, []⟩]⟩
        ⟨"admin", "u1", true⟩ 5 "" 60).2.products
        = (returnStock [⟨1, "p", 5⟩] [⟨1, "p", 2, 10, 20⟩]).2)
    ∧ (salesDeleteSale ⟨[⟨1, "p", 5⟩], [], []⟩ 5).2.products = [⟨1, "p", 5⟩] := by
  refine ⟨?_, ?_⟩
  · exact C4_void_delete_stock_reversal_once.1
      ⟨[⟨1, "p", 5⟩], [],
        [⟨5, ⟨"Alice", "0700", ""⟩, none, [⟨1, "p", 2, 10, 20⟩], 20, 20, .cash,
          some .completed, .sale, 50, none, none, none, none, []⟩]⟩
      ⟨"admin", "u1", true⟩ 5 "" 60
      ⟨5, ⟨"Alice", "0700", ""⟩, none, [⟨1, "p", 2, 10, 20⟩], 20, 20, .cash,
        some .completed, .sale, 50, none, none, none, none, []⟩
      rfl (by decide) (by decide) (by decide) (by decide)
  · exact C4_void_delete_stock_reversal_once.2.2.2.2 ⟨[⟨1, "p", 5⟩], [], []⟩ 5

/-- C10: the create handler calls `updateCustomerData` before the stock
decrement loop, so whenever the loop fails and the 409 conflict is
returned with no sale persisted, the final state still carries the full
customer-aggregate update: an existing customer is left incremented
(purchases + 1, spent + total, lastPurchaseDate = now) and a fresh
customer is left created; nothing rolls the increment back. -/
theorem C10_customer_update_survives_stock_failure
    (st : DBState) (req : CreateReq) (sid now : Nat) (msg : String) (stF : DBState)
    (h : createSale st req sid now = (.conflict msg, stF)) :
    stF.sales = st.sales
    ∧ (∀ enr sub, buildEnriched st.products req.items = .ok (enr, sub) →
        stF.customers = (updateCustomerData st.customers req.customer sub now).1
        ∧ (∀ c, findCustomer st.customers req.customer.phone = some c →
            findCustomer stF.customers req.customer.phone
              = some (bumpCustomer c req.customer sub now)
            ∧ (bumpCustomer c req.customer sub now).totalPurchases = c.totalPurchases + 1
            ∧ (bumpCustomer c req.customer sub now).totalSpent = c.totalSpent + sub
            ∧ (bumpCustomer c req.customer sub now).lastPurchaseDate = some now)
        ∧ (findCustomer st.customers req.customer.phone = none →
            findCustomer stF.customers req.customer.phone
              = some (freshCustomer req.customer sub now))) := by
  by_cases h1 : req.customer.cname = "" ∨ req.customer.phone = ""
  · unfold createSale at h
    rw [if_pos h1] at h
    simp at h
  by_cases h2 : req.items = []
  · unfold createSale at h
    rw [if_neg h1, if_pos h2] at h
    simp at h
  rcases henr0 : buildEnriched st.products req.items with e | enrsub
  · unfold createSale at h
    simp only [if_neg h1, if_neg h2, henr0] at h
    simp at h
  obtain ⟨enr0, sub0⟩ := enrsub
  rcases hloop : (reserveLoop st.products enr0).2 with dbFail | dbOk
  · unfold createSale at h
    simp only [if_neg h1, if_neg h2, henr0, hloop, Prod.mk.injEq] at h
    obtain ⟨hmsg, hstF⟩ := h
    constructor
    · rw [← hstF]
    · intro enr sub henr
      simp only [Except.ok.injEq, Prod.mk.injEq] at henr
      obtain ⟨he, hs⟩ := henr
      subst hs
      have hcust : stF.customers = (updateCustomerData st.customers req.customer sub0 now).1 := by
        rw [← hstF]
      refine ⟨hcust, ?_, ?_⟩
      · intro c hc
        refine ⟨?_, bumpCustomer_totalPurchases c req.customer sub0 now,
          bumpCustomer_totalSpent c req.customer sub0 now,
          bumpCustomer_lastPurchaseDate c req.customer sub0 now⟩
        rw [hcust]
        exact findCustomer_updateCustomerData_some st.customers req.customer sub0 now c hc
      · intro hc
        rw [hcust]
        exact findCustomer_updateCustomerData_none st.customers req.customer sub0 now hc
  · unfold createSale at h
    simp only [if_neg h1, if_neg h2, henr0, hloop] at h
    simp at h

/-- C10 witness: the theorem applied to a concrete failing create — the
second request line cannot be reserved, the conflict is returned, no sale
is persisted, and the newly created customer aggregate remains. -/
theorem C10_customer_update_survives_stock_failure_witness :
    (⟨[⟨1, "q", 1⟩], [⟨"0711", "Bea", "", 1, 30, some 100, some 100⟩], []⟩ : DBState).sales
      = ([] : List SaleRec)
    ∧ findCustomer
        (⟨[⟨1, "q", 1⟩], [⟨"0711", "Bea", "", 1, 30, some 100, some 100⟩], []⟩ : DBState).customers
        "0711" = some (freshCustomer ⟨"Bea", "0711", ""⟩ 30 100) := by
  have T := C10_customer_update_survives_stock_failure
    ⟨[⟨1, "q", 4⟩], [], []⟩
    ⟨⟨"Bea", "0711", ""⟩, [⟨1, "", 3, 5⟩, ⟨1, "", 3, 5⟩], "", "S", .sale⟩ 7 100
    "Stock changed for an item. Please refresh and try again."
    ⟨[⟨1, "q", 1⟩], [⟨"0711", "Bea", "", 1, 30, some 100, some 100⟩], []⟩ (by decide)
  exact ⟨T.1, (T.2 [⟨1, "q", 3, 5, 15⟩, ⟨1, "q", 3, 5, 15⟩] 30 rfl).2.2 rfl⟩

theorem trackChanges_spec (orig : SaleRec) (nc : CustInfo) (nt : Int) (npm : PayM) :
    ∀ ch ∈ trackChanges orig nc nt npm,
      fieldOf orig ch.field = some ch.fromV ∧ ch.fromV ≠ ch.toV
      ∧ ((ch.field = "customer" ∧ ch.toV = .vCust nc)
        ∨ (ch.field = "total" ∧ ch.toV = .vInt nt)
        ∨ (ch.field = "paymentMethod" ∧ ch.toV = .vPM npm)) := by
  intro ch hch
  simp only [trackChanges, List.mem_append] at hch
  rcases hch with (hch | hch) | hch
  · by_cases hc : orig.scustomer ≠ nc
    · rw [if_pos hc] at hch
      simp only [List.mem_singleton] at hch
      subst hch
      exact ⟨rfl, by simpa using hc, Or.inl ⟨rfl, rfl⟩⟩
    · rw [if_neg hc] at hch
      simp at hch
  · by_cases hc : orig.total ≠ nt
    · rw [if_pos hc] at hch
      simp only [List.mem_singleton] at hch
      subst hch
      exact ⟨rfl, by simpa using hc, Or.inr (Or.inl ⟨rfl, rfl⟩)⟩
    · rw [if_neg hc] at hch
      simp at hch
  · by_cases hc : orig.paymentMethod ≠ npm
    · rw [if_pos hc] at hch
      simp only [List.mem_singleton] at hch
      subst hch
      exact ⟨rfl, by simpa using hc, Or.inr (Or.inr ⟨rfl, rfl⟩)⟩
    · rw [if_neg hc] at hch
      simp at hch

/-- C6 counterexample: validating a pending expense is a state-changing
call (the status flips to validated) that appends prose to `notes` and
appends no editHistory entry at all — refuting "every state-changing call
appends exactly one editHistory entry". -/
theorem C6_counterexample_validate_appends_no_history :
    validateExpense [⟨1, .pending, "", none, none, []⟩] ⟨"admin", "u1", true⟩ 1 "" "" 9
      = (.ok ⟨1, .validated, "Expense validated", some "u1", some 9, []⟩,
         [⟨1, .validated, "Expense validated", some "u1", some 9, []⟩])
    ∧ (⟨1, .validated, "Expense validated", some "u1", some 9, []⟩ : ExpenseRec).editHistory.length
        = (⟨1, .pending, "", none, none, []⟩ : ExpenseRec).editHistory.length
    ∧ (⟨1, .validated, "Expense validated", some "u1", some 9, []⟩ : ExpenseRec).editHistory.length = 0
    ∧ (0 : Nat) ≠ 1 := by
  refine ⟨by decide, rfl, rfl, by decide⟩

/-- C6 (amended): the edit and void handlers append exactly one
editHistory entry per successful call — carrying the acting identity, the
timestamp, a defaulted free-text reason, and a changes map that contains
only tracked fields whose committed value differs from the pre-edit value
— and never touch existing entries (the new history is the old list plus
one appended entry).  The expense validate action, by contrast, changes
state while appending prose to `notes` and no editHistory entry (per the
counterexample), so the claim is amended to exclude it. -/
theorem C6_audit_entries_edit_void_only :
    (∀ st user (i : Nat) req (now : Nat) s' stF orig,
      findSale st.sales i = some orig →
      editSale st user i req now = (.ok s', stF) →
      ∃ entry, s'.editHistory = orig.editHistory ++ [entry]
        ∧ entry.editedBy = user.userId ∧ entry.editedAt = now
        ∧ entry.reason = (if req.reason ≠ "" then req.reason else "Sale correction")
        ∧ ∀ ch ∈ entry.changes,
            fieldOf orig ch.field = some ch.fromV ∧ fieldOf s' ch.field = some ch.toV
            ∧ ch.fromV ≠ ch.toV)
    ∧ (∀ st user (i : Nat) (reason : String) (now : Nat) s' stF orig,
        findSale st.sales i = some orig →
        voidSale st user i reason now = (.ok s', stF) →
        ∃ entry, s'.editHistory = orig.editHistory ++ [entry]
          ∧ entry.editedBy = user.userId ∧ entry.editedAt = now
          ∧ entry.changes = [⟨"status", .vStatus orig.status, .vStatus (some SStatus.voided)⟩]
          ∧ orig.status ≠ some SStatus.voided
          ∧ fieldOf s' "status" = some (.vStatus (some SStatus.voided)))
    ∧ (∀ db user (i : Nat) (vb nts : String) (now : Nat) e' db' e,
        findExpense db i = some e →
        validateExpense db user i vb nts now = (.ok e', db') →
        e.status = .pending ∧ e'.status = .validated ∧ e'.editHistory = e.editHistory) := by
  refine ⟨?_, ?_, ?_⟩
  · intro st user i req now s' stF orig horig h
    by_cases hrole : user.role ≠ "admin"
    · unfold editSale at h
      rw [if_pos hrole] at h
      simp at h
    unfold editSale at h
    simp only [if_neg hrole, horig] at h
    by_cases hstat : orig.status = some SStatus.voided ∨ orig.status = some SStatus.corrected
    · rw [if_pos hstat] at h
      simp at h
    rw [if_neg hstat] at h
    rcases henr : buildEnrichedNoStock st.products req.items with e | enrsub
    · simp only [henr] at h
      simp at h
    obtain ⟨enr0, sub0⟩ := enrsub
    simp only [henr] at h
    rcases hadj : (applyAdjustments st.products
        (computeStockAdjustments orig.items enr0)
        (computeStockAdjustments orig.items enr0)).2 with dbR | db'
    · simp only [hadj] at h
      simp at h
    simp only [hadj, Prod.mk.injEq, EditRes.ok.injEq] at h
    obtain ⟨hs', hstF⟩ := h
    subst hs'
    refine ⟨_, rfl, rfl, rfl, rfl, ?_⟩
    intro ch hch
    have hspec := trackChanges_spec orig req.customer sub0
      (normalizePaymentMethod req.paymentMethod) ch hch
    refine ⟨hspec.1, ?_, hspec.2.1⟩
    rcases hspec.2.2 with ⟨hf, hv⟩ | ⟨hf, hv⟩ | ⟨hf, hv⟩ <;> rw [hf, hv] <;> rfl
  · intro st user i reason now s' stF orig horig h
    by_cases hrole : user.role ≠ "admin"
    · unfold voidSale at h
      rw [if_pos hrole] at h
      simp at h
    unfold voidSale at h
    simp only [if_neg hrole, horig] at h
    by_cases hstat : orig.status = some SStatus.voided
    · rw [if_pos hstat] at h
      simp at h
    rw [if_neg hstat] at h
    simp only [Prod.mk.injEq, VoidRes.ok.injEq] at h
    obtain ⟨hs', hstF⟩ := h
    subst hs'
    exact ⟨_, rfl, rfl, rfl, rfl, hstat, rfl⟩
  · intro db user i vb nts now e' db' e hfind h
    by_cases hperm : ¬ user.canValidate
    · unfold validateExpense at h
      rw [if_pos hperm] at h
      simp at h
    unfold validateExpense at h
    simp only [if_neg hperm, hfind] at h
    by_cases hv : e.status = EStatus.validated
    · rw [if_pos hv] at h
      simp at h
    rw [if_neg hv] at h
    by_cases hr : e.status = EStatus.rejected
    · rw [if_pos hr] at h
      simp at h
    rw [if_neg hr] at h
    simp only [Prod.mk.injEq, ExpRes.ok.injEq] at h
    obtain ⟨he', hdb'⟩ := h
    subst he'
    refine ⟨?_, rfl, rfl⟩
    cases hst : e.status with
    | pending => rfl
    | validated => exact absurd hst hv
    | rejected => exact absurd hst hr

/-- C6 witness: the amended theorem applied to a concrete void — the
voided sale's history is the old history plus exactly one entry recording
the status flip. -/
theorem C6_audit_entries_edit_void_only_witness :
    ∃ entry, (⟨5, ⟨"Alice", "0700", ""⟩, none, [⟨1, "p", 2, 10, 20⟩], 20, 20, .cash,
        some .voided, .sale, 50, none, none, some "u1", some 60,
        [⟨"u1", 60, [⟨"status", .vStatus (some .completed), .vStatus (some .voided)⟩],
          "Sale voided"⟩]⟩ : SaleRec).editHistory
      = ([] : List EditEntry) ++ [entry]
    ∧ entry.editedBy = "u1" ∧ entry.editedAt = 60
    ∧ entry.changes = [⟨"status", .vStatus (some SStatus.completed),
        .vStatus (some SStatus.voided)⟩]
    ∧ (some SStatus.completed : Option SStatus) ≠ some SStatus.voided
    ∧ fieldOf (⟨5, ⟨"Alice", "0700", ""⟩, none, [⟨1, "p", 2, 10, 20⟩], 20, 20, .cash,
        some .voided, .sale, 50, none, none, some "u1", some 60,
        [⟨"u1", 60, [⟨"status", .vStatus (some .completed), .vStatus (some .voided)⟩],
          "Sale voided"⟩]⟩ : SaleRec) "status"
      = some (.vStatus (some SStatus.voided)) := by
  exact C6_audit_entries_edit_void_only.2.1
    ⟨[⟨1, "p", 5⟩], [],
      [⟨5, ⟨"Alice", "0700", ""⟩, none, [⟨1, "p", 2, 10, 20⟩], 20, 20, .cash,
        some .completed, .sale, 50, none, none, none, none, []⟩]⟩
    ⟨"admin", "u1", true⟩ 5 "" 60
    ⟨5, ⟨"Alice", "0700", ""⟩, none, [⟨1, "p", 2, 10, 20⟩], 20, 20, .cash,
      some .voided, .sale, 50, none, none, some "u1", some 60,
      [⟨"u1", 60, [⟨"status", .vStatus (some .completed), .vStatus (some .voided)⟩],
        "Sale voided"⟩]⟩
    ⟨[⟨1, "p", 7⟩], [],
      [⟨5, ⟨"Alice", "0700", ""⟩, none, [⟨1, "p", 2, 10, 20⟩], 20, 20, .cash,
        some .voided, .sale, 50, none, none, some "u1", some 60,
        [⟨"u1", 60, [⟨"status", .vStatus (some .completed), .vStatus (some .voided)⟩],
          "Sale voided"⟩]⟩]⟩
    ⟨5, ⟨"Alice", "0700", ""⟩, none, [⟨1, "p", 2, 10, 20⟩], 20, 20, .cash,
      some .completed, .sale, 50, none, none, none, none, []⟩
    rfl (by decide)

/-- C9: the expense validate action succeeds exactly from the pending
status — an already-validated or already-rejected expense is rejected
with the database unchanged — and the reject action requires the
validation privilege and a non-empty reason and is rejected with the
database unchanged when the expense is already validated. -/
theorem C9_expense_validate_reject_state_machine :
    (∀ db user (i : Nat) (vb nts : String) (now : Nat) e,
      user.canValidate = true → findExpense db i = some e → e.status = .pending →
      ∃ e', validateExpense db user i vb nts now = (.ok e', saveExpense db i e')
        ∧ e'.status = .validated)
    ∧ (∀ db user (i : Nat) (vb nts : String) (now : Nat) e' db',
        validateExpense db user i vb nts now = (.ok e', db') →
        ∃ e, findExpense db i = some e ∧ e.status = .pending)
    ∧ (∀ db user (i : Nat) (vb nts : String) (now : Nat) e,
        user.canValidate = true → findExpense db i = some e → e.status = .validated →
        validateExpense db user i vb nts now
          = (.badRequest "Expense is already validated", db))
    ∧ (∀ db user (i : Nat) (vb nts : String) (now : Nat) e,
        user.canValidate = true → findExpense db i = some e → e.status = .rejected →
        validateExpense db user i vb nts now
          = (.badRequest "Cannot validate a rejected expense", db))
    ∧ (∀ db user (i : Nat) (reason nts : String) (now : Nat),
        user.canValidate = false →
        rejectExpense db user i reason nts now
          = (.forbidden "Insufficient permissions to reject expenses", db))
    ∧ (∀ db user (i : Nat) (nts : String) (now : Nat) e,
        user.canValidate = true → findExpense db i = some e → e.status = .pending →
        rejectExpense db user i "" nts now = (.badRequest "Rejection reason is required", db))
    ∧ (∀ db user (i : Nat) (reason nts : String) (now : Nat) e,
        user.canValidate = true → findExpense db i = some e → e.status = .validated →
        rejectExpense db user i reason nts now
          = (.badRequest "Cannot reject a validated expense", db)) := by
  refine ⟨?_, ?_, ?_, ?_, ?_, ?_, ?_⟩
  · intro db user i vb nts now e hperm hfind hst
    unfold validateExpense
    rw [if_neg (by simp [hperm]), hfind]
    dsimp only
    rw [if_neg (by simp [hst]), if_neg (by simp [hst])]
    exact ⟨_, rfl, rfl⟩
  · intro db user i vb nts now e' db' h
    by_cases hperm : ¬ user.canValidate
    · unfold validateExpense at h
      rw [if_pos hperm] at h
      simp at h
    unfold validateExpense at h
    rw [if_neg hperm] at h
    rcases hfind : findExpense db i with _ | e
    · simp only [hfind] at h
      simp at h
    simp only [hfind] at h
    by_cases hv : e.status = EStatus.validated
    · rw [if_pos hv] at h
      simp at h
    rw [if_neg hv] at h
    by_cases hr : e.status = EStatus.rejected
    · rw [if_pos hr] at h
      simp at h
    refine ⟨e, rfl, ?_⟩
    cases hst : e.status with
    | pending => rfl
    | validated => exact absurd hst hv
    | rejected => exact absurd hst hr
  · intro db user i vb nts now e hperm hfind hst
    unfold validateExpense
    rw [if_neg (by simp [hperm]), hfind]
    dsimp only
    rw [if_pos hst]
  · intro db user i vb nts now e hperm hfind hst
    unfold validateExpense
    rw [if_neg (by simp [hperm]), hfind]
    dsimp only
    rw [if_neg (by simp [hst]), if_pos hst]
  · intro db user i reason nts now hperm
    unfold rejectExpense
    rw [if_pos (by simp [hperm])]
  · intro db user i nts now e hperm hfind hst
    unfold rejectExpense
    rw [if_neg (by simp [hperm]), hfind]
    dsimp only
    rw [if_neg (by simp [hst]), if_neg (by simp [hst]), if_pos rfl]
  · intro db user i reason nts now e hperm hfind hst
    unfold rejectExpense
    rw [if_neg (by simp [hperm]), hfind]
    dsimp only
    rw [if_neg (by simp [hst]), if_pos hst]

/-- C9 witness: the theorem applied to a one-expense database — a pending
expense validates successfully, and rejecting it without a reason is
refused with the database unchanged. -/
theorem C9_expense_validate_reject_state_machine_witness :
    (∃ e', validateExpense [⟨1, .pending, "", none, none, []⟩] ⟨"a", "u1", true⟩ 1 "" "" 9
        = (.ok e', saveExpense [⟨1, .pending, "", none, none, []⟩] 1 e')
      ∧ e'.status = .validated)
    ∧ rejectExpense [⟨1, .pending, "", none, none, []⟩] ⟨"a", "u1", true⟩ 1 "" "" 9
        = (.badRequest "Rejection reason is required", [⟨1, .pending, "", none, none, []⟩]) :=
  ⟨C9_expense_validate_reject_state_machine.1 [⟨1, .pending, "", none, none, []⟩]
      ⟨"a", "u1", true⟩ 1 "" "" 9 ⟨1, .pending, "", none, none, []⟩ rfl rfl rfl,
   C9_expense_validate_reject_state_machine.2.2.2.2.2.1 [⟨1, .pending, "", none, none, []⟩]
      ⟨"a", "u1", true⟩ 1 "" 9 ⟨1, .pending, "", none, none, []⟩ rfl rfl rfl⟩

theorem jsMkDate_first (y m : Int) (h0 : 0 ≤ m) (h1 : m ≤ 11) :
    jsMkDate y m 1 = ⟨y, m + 1, 1, 0, 0, 0, 0⟩ := by
  unfold jsMkDate
  rw [if_neg (show ¬(12 ≤ m) by omega), if_neg (show ¬(12 ≤ m) by omega),
    if_neg (show ¬(1 : Int) = 0 by norm_num)]

theorem jsMkDate_monthEnd (y m : Int) (h0 : 1 ≤ m) (h1 : m ≤ 12) :
    jsMkDate y m 0 = ⟨y, m, daysInMonth y m, 0, 0, 0, 0⟩ := by
  unfold jsMkDate
  by_cases hm : 12 ≤ m
  · have hm12 : m = 12 := by omega
    subst hm12
    rw [if_pos (by omega), if_pos (by omega)]
    norm_num [daysInMonth]
  · rw [if_neg hm, if_neg hm, if_pos rfl, if_neg (show ¬(m + 1 = 1) by omega)]
    norm_num

/-- C7: the timeframe resolver evaluates its hints in the fixed priority
order custom range, single day, year+month, year, default today, and
returns the interval of the first matching rule: an absent `from` maps to
the epoch, an absent `to` maps to now, a `from` later than a present `to`
is rejected, and the day, month, year and default intervals start at
00:00:00.000 of their first day and end at 23:59:59.999 of their last
day. -/
theorem C7_timeframe_resolver_priority (q : TQuery) (now : DT) :
    (∀ f df, q.tfrom = some f → f ≠ "" → truthy q.tto = false →
      jsParseDateYMD f = some df →
      buildTimeframeFilter q now = .ok ⟨startOfDay df, now⟩)
    ∧ (∀ t dt, truthy q.tfrom = false → q.tto = some t → t ≠ "" →
        jsParseDateYMD t = some dt →
        buildTimeframeFilter q now = .ok ⟨epochDT, endOfDay dt⟩)
    ∧ (∀ f df t dt, q.tfrom = some f → f ≠ "" → q.tto = some t → t ≠ "" →
        jsParseDateYMD f = some df → jsParseDateYMD t = some dt →
        dtGtB (startOfDay df) (endOfDay dt) = true →
        buildTimeframeFilter q now
          = .error "Start date (from) must be before or equal to end date (to)")
    ∧ (∀ f df t dt, q.tfrom = some f → f ≠ "" → q.tto = some t → t ≠ "" →
        jsParseDateYMD f = some df → jsParseDateYMD t = some dt →
        dtGtB (startOfDay df) (endOfDay dt) = false →
        buildTimeframeFilter q now = .ok ⟨startOfDay df, endOfDay dt⟩)
    ∧ (∀ d dd, truthy q.tfrom = false → truthy q.tto = false → q.tdate = some d →
        d ≠ "" → jsParseDateYMD d = some dd →
        buildTimeframeFilter q now
          = .ok ⟨⟨dd.year, dd.month, dd.day, 0, 0, 0, 0⟩,
                 ⟨dd.year, dd.month, dd.day, 23, 59, 59, 999⟩⟩)
    ∧ (∀ ys ms (y m : Int), truthy q.tfrom = false → truthy q.tto = false →
        truthy q.tdate = false →
        q.tyear = some ys → ys ≠ "" → q.tmonth = some ms → ms ≠ "" →
        jsParseInt ys = some y → 2000 ≤ y → y ≤ 2100 →
        jsParseInt ms = some m → 1 ≤ m → m ≤ 12 →
        buildTimeframeFilter q now
          = .ok ⟨⟨y, m, 1, 0, 0, 0, 0⟩, ⟨y, m, daysInMonth y m, 23, 59, 59, 999⟩⟩)
    ∧ (∀ ys (y : Int), truthy q.tfrom = false → truthy q.tto = false →
        truthy q.tdate = false →
        q.tyear = some ys → ys ≠ "" → truthy q.tmonth = false →
        jsParseInt ys = some y → 2000 ≤ y → y ≤ 2100 →
        buildTimeframeFilter q now
          = .ok ⟨⟨y, 1, 1, 0, 0, 0, 0⟩, ⟨y, 12, 31, 23, 59, 59, 999⟩⟩)
    ∧ (truthy q.tfrom = false → truthy q.tto = false → truthy q.tdate = false →
        truthy q.tyear = false →
        buildTimeframeFilter q now = .ok ⟨startOfDay now, endOfDay now⟩) := by
  refine ⟨?_, ?_, ?_, ?_, ?_, ?_, ?_, ?_⟩
  · intro f df hf hfne hto hdf
    have hft : truthy q.tfrom = true := by simp [truthy, hf, hfne]
    unfold buildTimeframeFilter
    rw [if_pos (by rw [hft]; simp)]
    rw [if_pos (by rw [hft])]
    unfold parseDateE
    rw [hf]
    simp only [Option.getD_some]
    rw [hdf]
    dsimp only
    rw [if_neg (show ¬ truthy q.tto = true from by rw [hto]; simp)]
    dsimp only
    rw [if_neg (by simp [hto])]
    simp
  · intro t dt hfrom ht htne hdt
    have htt : truthy q.tto = true := by simp [truthy, ht, htne]
    unfold buildTimeframeFilter
    rw [if_pos (by rw [htt]; simp)]
    rw [if_neg (show ¬ truthy q.tfrom = true from by rw [hfrom]; simp)]
    dsimp only
    rw [if_pos (by rw [htt])]
    unfold parseDateE
    rw [ht]
    simp only [Option.getD_some]
    rw [hdt]
    dsimp only
    rw [if_neg (by simp [hfrom])]
    simp
  · intro f df t dt hf hfne ht htne hdf hdt hgt
    have hft : truthy q.tfrom = true := by simp [truthy, hf, hfne]
    have htt : truthy q.tto = true := by simp [truthy, ht, htne]
    unfold buildTimeframeFilter
    rw [if_pos (by rw [hft]; simp)]
    rw [if_pos (by rw [hft])]
    unfold parseDateE
    rw [hf, ht]
    simp only [Option.getD_some]
    rw [hdf, hdt]
    dsimp only
    simp [truthy, hfne, htne, hgt]
  · intro f df t dt hf hfne ht htne hdf hdt hgt
    have hft : truthy q.tfrom = true := by simp [truthy, hf, hfne]
    have htt : truthy q.tto = true := by simp [truthy, ht, htne]
    unfold buildTimeframeFilter
    rw [if_pos (by rw [hft]; simp)]
    rw [if_pos (by rw [hft])]
    unfold parseDateE
    rw [hf, ht]
    simp only [Option.getD_some]
    rw [hdf, hdt]
    dsimp only
    simp [truthy, hfne, htne, hgt]
  · intro d dd hfrom hto hd hdne hdd
    have hdt : truthy q.tdate = true := by simp [truthy, hd, hdne]
    unfold buildTimeframeFilter
    rw [if_neg (by simp [hfrom, hto])]
    rw [if_pos (by rw [hdt])]
    unfold parseDateE
    rw [hd]
    simp only [Option.getD_some]
    rw [hdd]
    dsimp only
    simp [startOfDay, endOfDay]
  · intro ys ms y m hfrom hto hdate hy hyne hm hmne hpy hy0 hy1 hpm hm0 hm1
    have hyt : truthy q.tyear = true := by simp [truthy, hy, hyne]
    have hmt : truthy q.tmonth = true := by simp [truthy, hm, hmne]
    unfold buildTimeframeFilter
    rw [if_neg (by simp [hfrom, hto])]
    rw [if_neg (by simp [hdate])]
    rw [if_pos ⟨hyt, hmt⟩]
    rw [hy, hm]
    simp only [Option.getD_some]
    rw [hpy, hpm]
    dsimp only
    rw [if_neg (show ¬(y < 2000 ∨ y > 2100) by omega)]
    simp only [Option.map_some']
    rw [if_neg (show ¬(m - 1 < 0 ∨ m - 1 > 11) by omega)]
    rw [jsMkDate_first y (m - 1) (by omega) (by omega)]
    rw [show m - 1 + 1 = m by omega]
    rw [jsMkDate_monthEnd y m hm0 hm1]
    simp [endOfDay]
  · intro ys y hfrom hto hdate hy hyne hmono hpy hy0 hy1
    have hyt : truthy q.tyear = true := by simp [truthy, hy, hyne]
    unfold buildTimeframeFilter
    rw [if_neg (by simp [hfrom, hto])]
    rw [if_neg (by simp [hdate])]
    rw [if_neg (by simp [hmono])]
    rw [if_pos (by rw [hyt])]
    rw [hy]
    simp only [Option.getD_some]
    rw [hpy]
    dsimp only
    rw [if_neg (show ¬(y < 2000 ∨ y > 2100) by omega)]
    rw [jsMkDate_first y 0 (by omega) (by omega)]
    rw [show jsMkDate y 11 31 = ⟨y, 12, 31, 0, 0, 0, 0⟩ from by unfold jsMkDate; norm_num]
    norm_num [endOfDay]
  · intro hfrom hto hdate hyear
    unfold buildTimeframeFilter
    rw [if_neg (by simp [hfrom, hto])]
    rw [if_neg (by simp [hdate])]
    rw [if_neg (by simp [hyear])]
    rw [if_neg (by simp [hyear])]

/-- C7 witness: the theorem applied at concrete queries, one per rule —
custom range with absent `to`, absent `from`, rejected and accepted
two-sided ranges, a single day (beating year and month hints), a month, a
year, and the default today. -/
theorem C7_timeframe_resolver_priority_witness :
    buildTimeframeFilter ⟨some "2024-05-10", none, none, some "1999", none⟩
        ⟨2026, 1, 1, 12, 0, 0, 0⟩
      = .ok ⟨startOfDay ⟨2024, 5, 10, 0, 0, 0, 0⟩, ⟨2026, 1, 1, 12, 0, 0, 0⟩⟩
    ∧ buildTimeframeFilter ⟨none, some "2024-05-09", none, none, none⟩
        ⟨2026, 1, 1, 12, 0, 0, 0⟩
      = .ok ⟨epochDT, endOfDay ⟨2024, 5, 9, 0, 0, 0, 0⟩⟩
    ∧ buildTimeframeFilter ⟨some "2024-05-10", some "2024-05-09", none, none, none⟩
        ⟨2026, 1, 1, 12, 0, 0, 0⟩
      = .error "Start date (from) must be before or equal to end date (to)"
    ∧ buildTimeframeFilter ⟨some "2024-05-09", some "2024-05-10", none, none, none⟩
        ⟨2026, 1, 1, 12, 0, 0, 0⟩
      = .ok ⟨startOfDay ⟨2024, 5, 9, 0, 0, 0, 0⟩, endOfDay ⟨2024, 5, 10, 0, 0, 0, 0⟩⟩
    ∧ buildTimeframeFilter ⟨none, none, some "2024-05-09", some "2024", some "7"⟩
        ⟨2026, 1, 1, 12, 0, 0, 0⟩
      = .ok ⟨⟨2024, 5, 9, 0, 0, 0, 0⟩, ⟨2024, 5, 9, 23, 59, 59, 999⟩⟩
    ∧ buildTimeframeFilter ⟨none, none, none, some "2024", some "2"⟩
        ⟨2026, 1, 1, 12, 0, 0, 0⟩
      = .ok ⟨⟨2024, 2, 1, 0, 0, 0, 0⟩, ⟨2024, 2, daysInMonth 2024 2, 23, 59, 59, 999⟩⟩
    ∧ buildTimeframeFilter ⟨none, none, none, some "2023", none⟩
        ⟨2026, 1, 1, 12, 0, 0, 0⟩
      = .ok ⟨⟨2023, 1, 1, 0, 0, 0, 0⟩, ⟨2023, 12, 31, 23, 59, 59, 999⟩⟩
    ∧ buildTimeframeFilter ⟨none, none, none, none, none⟩ ⟨2026, 1, 1, 12, 0, 0, 0⟩
      = .ok ⟨startOfDay ⟨2026, 1, 1, 12, 0, 0, 0⟩, endOfDay ⟨2026, 1, 1, 12, 0, 0, 0⟩⟩ := by
  refine ⟨?_, ?_, ?_, ?_, ?_, ?_, ?_, ?_⟩
  · exact (C7_timeframe_resolver_priority
      ⟨some "2024-05-10", none, none, some "1999", none⟩ ⟨2026, 1, 1, 12, 0, 0, 0⟩).1
      "2024-05-10" ⟨2024, 5, 10, 0, 0, 0, 0⟩ rfl (by decide) rfl rfl
  · exact (C7_timeframe_resolver_priority
      ⟨none, some "2024-05-09", none, none, none⟩ ⟨2026, 1, 1, 12, 0, 0, 0⟩).2.1
      "2024-05-09" ⟨2024, 5, 9, 0, 0, 0, 0⟩ rfl rfl (by decide) rfl
  · exact (C7_timeframe_resolver_priority
      ⟨some "2024-05-10", some "2024-05-09", none, none, none⟩ ⟨2026, 1, 1, 12, 0, 0, 0⟩).2.2.1
      "2024-05-10" ⟨2024, 5, 10, 0, 0, 0, 0⟩ "2024-05-09" ⟨2024, 5, 9, 0, 0, 0, 0⟩
      rfl (by decide) rfl (by decide) rfl rfl (by decide)
  · exact (C7_timeframe_resolver_priority
      ⟨some "2024-05-09", some "2024-05-10", none, none, none⟩ ⟨2026, 1, 1, 12, 0, 0, 0⟩).2.2.2.1
      "2024-05-09" ⟨2024, 5, 9, 0, 0, 0, 0⟩ "2024-05-10" ⟨2024, 5, 10, 0, 0, 0, 0⟩
      rfl (by decide) rfl (by decide) rfl rfl (by decide)
  · exact (C7_timeframe_resolver_priority
      ⟨none, none, some "2024-05-09", some "2024", some "7"⟩ ⟨2026, 1, 1, 12, 0, 0, 0⟩).2.2.2.2.1
      "2024-05-09" ⟨2024, 5, 9, 0, 0, 0, 0⟩ rfl rfl rfl (by decide) rfl
  · exact (C7_timeframe_resolver_priority
      ⟨none, none, none, some "2024", some "2"⟩ ⟨2026, 1, 1, 12, 0, 0, 0⟩).2.2.2.2.2.1
      "2024" "2" 2024 2 rfl rfl rfl rfl (by decide) rfl (by decide)
      rfl (by decide) (by decide) rfl (by decide) (by decide)
  · exact (C7_timeframe_resolver_priority
      ⟨none, none, none, some "2023", none⟩ ⟨2026, 1, 1, 12, 0, 0, 0⟩).2.2.2.2.2.2.1
      "2023" 2023 rfl rfl rfl rfl (by decide) rfl rfl (by decide) (by decide)
  · exact (C7_timeframe_resolver_priority
      ⟨none, none, none, none, none⟩ ⟨2026, 1, 1, 12, 0, 0, 0⟩).2.2.2.2.2.2.2
      rfl rfl rfl rfl

/-- C8: the timeframe resolver reports a validation error and builds no
interval when the consulted hint is malformed — an unparsable `from` or
`date` string, a year that parses outside 2000-2100 (with or without a
month), or, with the year present and in range, a month that fails to
parse or parses outside 1-12 (the error cites the 01-12 range); no such
input is silently coerced into an interval. -/
theorem C8_timeframe_validation_errors (q : TQuery) (now : DT) :
    (∀ f, q.tfrom = some f → f ≠ "" → jsParseDateYMD f = none →
      buildTimeframeFilter q now
        = .error ("Invalid date format: " ++ f ++ ". Use YYYY-MM-DD format."))
    ∧ (∀ d, truthy q.tfrom = false → truthy q.tto = false → q.tdate = some d →
        d ≠ "" → jsParseDateYMD d = none →
        buildTimeframeFilter q now
          = .error ("Invalid date format: " ++ d ++ ". Use YYYY-MM-DD format."))
    ∧ (∀ ys ms, truthy q.tfrom = false → truthy q.tto = false → truthy q.tdate = false →
        q.tyear = some ys → ys ≠ "" → q.tmonth = some ms → ms ≠ "" →
        jsParseInt ys = none →
        buildTimeframeFilter q now
          = .error ("Invalid year: " ++ ys ++ ". Must be between 2000-2100."))
    ∧ (∀ ys ms (y : Int), truthy q.tfrom = false → truthy q.tto = false →
        truthy q.tdate = false →
        q.tyear = some ys → ys ≠ "" → q.tmonth = some ms → ms ≠ "" →
        jsParseInt ys = some y → (y < 2000 ∨ y > 2100) →
        buildTimeframeFilter q now
          = .error ("Invalid year: " ++ ys ++ ". Must be between 2000-2100."))
    ∧ (∀ ys ms (y : Int), truthy q.tfrom = false → truthy q.tto = false →
        truthy q.tdate = false →
        q.tyear = some ys → ys ≠ "" → q.tmonth = some ms → ms ≠ "" →
        jsParseInt ys = some y → 2000 ≤ y → y ≤ 2100 → jsParseInt ms = none →
        buildTimeframeFilter q now
          = .error ("Invalid month: " ++ ms ++ ". Must be between 01-12."))
    ∧ (∀ ys ms (y m : Int), truthy q.tfrom = false → truthy q.tto = false →
        truthy q.tdate = false →
        q.tyear = some ys → ys ≠ "" → q.tmonth = some ms → ms ≠ "" →
        jsParseInt ys = some y → 2000 ≤ y → y ≤ 2100 →
        jsParseInt ms = some m → (m < 1 ∨ m > 12) →
        buildTimeframeFilter q now
          = .error ("Invalid month: " ++ ms ++ ". Must be between 01-12."))
    ∧ (∀ ys, truthy q.tfrom = false → truthy q.tto = false → truthy q.tdate = false →
        q.tyear = some ys → ys ≠ "" → truthy q.tmonth = false →
        jsParseInt ys = none →
        buildTimeframeFilter q now
          = .error ("Invalid year: " ++ ys ++ ". Must be between 2000-2100."))
    ∧ (∀ ys (y : Int), truthy q.tfrom = false → truthy q.tto = false →
        truthy q.tdate = false →
        q.tyear = some ys → ys ≠ "" → truthy q.tmonth = false →
        jsParseInt ys = some y → (y < 2000 ∨ y > 2100) →
        buildTimeframeFilter q now
          = .error ("Invalid year: " ++ ys ++ ". Must be between 2000-2100.")) := by
  refine ⟨?_, ?_, ?_, ?_, ?_, ?_, ?_, ?_⟩
  · intro f hf hfne hdf
    have hft : truthy q.tfrom = true := by simp [truthy, hf, hfne]
    unfold buildTimeframeFilter
    rw [if_pos (by rw [hft]; simp)]
    rw [if_pos (by rw [hft])]
    unfold parseDateE
    rw [hf]
    simp only [Option.getD_some]
    rw [hdf]
  · intro d hfrom hto hd hdne hdd
    have hdt : truthy q.tdate = true := by simp [truthy, hd, hdne]
    unfold buildTimeframeFilter
    rw [if_neg (by simp [hfrom, hto])]
    rw [if_pos (by rw [hdt])]
    unfold parseDateE
    rw [hd]
    simp only [Option.getD_some]
    rw [hdd]
  · intro ys ms hfrom hto hdate hy hyne hm hmne hpy
    have hyt : truthy q.tyear = true := by simp [truthy, hy, hyne]
    have hmt : truthy q.tmonth = true := by simp [truthy, hm, hmne]
    unfold buildTimeframeFilter
    rw [if_neg (by simp [hfrom, hto])]
    rw [if_neg (by simp [hdate])]
    rw [if_pos ⟨hyt, hmt⟩]
    rw [hy]
    simp only [Option.getD_some]
    rw [hpy]
  · intro ys ms y hfrom hto hdate hy hyne hm hmne hpy hrange
    have hyt : truthy q.tyear = true := by simp [truthy, hy, hyne]
    have hmt : truthy q.tmonth = true := by simp [truthy, hm, hmne]
    unfold buildTimeframeFilter
    rw [if_neg (by simp [hfrom, hto])]
    rw [if_neg (by simp [hdate])]
    rw [if_pos ⟨hyt, hmt⟩]
    rw [hy]
    simp only [Option.getD_some]
    rw [hpy]
    dsimp only
    rw [if_pos hrange]
  · intro ys ms y hfrom hto hdate hy hyne hm hmne hpy hy0 hy1 hpm
    have hyt : truthy q.tyear = true := by simp [truthy, hy, hyne]
    have hmt : truthy q.tmonth = true := by simp [truthy, hm, hmne]
    unfold buildTimeframeFilter
    rw [if_neg (by simp [hfrom, hto])]
    rw [if_neg (by simp [hdate])]
    rw [if_pos ⟨hyt, hmt⟩]
    rw [hy, hm]
    simp only [Option.getD_some]
    rw [hpy, hpm]
    dsimp only
    rw [if_neg (show ¬(y < 2000 ∨ y > 2100) by omega)]
    simp only [Option.map_none']
  · intro ys ms y m hfrom hto hdate hy hyne hm hmne hpy hy0 hy1 hpm hrange
    have hyt : truthy q.tyear = true := by simp [truthy, hy, hyne]
    have hmt : truthy q.tmonth = true := by simp [truthy, hm, hmne]
    unfold buildTimeframeFilter
    rw [if_neg (by simp [hfrom, hto])]
    rw [if_neg (by simp [hdate])]
    rw [if_pos ⟨hyt, hmt⟩]
    rw [hy, hm]
    simp only [Option.getD_some]
    rw [hpy, hpm]
    dsimp only
    rw [if_neg (show ¬(y < 2000 ∨ y > 2100) by omega)]
    simp only [Option.map_some']
    rw [if_pos (show m - 1 < 0 ∨ m - 1 > 11 by omega)]
  · intro ys hfrom hto hdate hy hyne hmono hpy
    have hyt : truthy q.tyear = true := by simp [truthy, hy, hyne]
    unfold buildTimeframeFilter
    rw [if_neg (by simp [hfrom, hto])]
    rw [if_neg (by simp [hdate])]
    rw [if_neg (by simp [hmono])]
    rw [if_pos (by rw [hyt])]
    rw [hy]
    simp only [Option.getD_some]
    rw [hpy]
  · intro ys y hfrom hto hdate hy hyne hmono hpy hrange
    have hyt : truthy q.tyear = true := by simp [truthy, hy, hyne]
    unfold buildTimeframeFilter
    rw [if_neg (by simp [hfrom, hto])]
    rw [if_neg (by simp [hdate])]
    rw [if_neg (by simp [hmono])]
    rw [if_pos (by rw [hyt])]
    rw [hy]
    simp only [Option.getD_some]
    rw [hpy]
    dsimp only
    rw [if_pos hrange]

/-- C8 witness: the theorem applied at concrete malformed queries —
year 2024 with month 13 yields the validation error citing the 01-12
month range, year 1999 is rejected as out of 2000-2100, and an unparsable
date string is rejected rather than coerced. -/
theorem C8_timeframe_validation_errors_witness :
    buildTimeframeFilter ⟨none, none, none, some "2024", some "13"⟩ ⟨2026, 1, 1, 12, 0, 0, 0⟩
      = .error "Invalid month: 13. Must be between 01-12."
    ∧ buildTimeframeFilter ⟨none, none, none, some "1999", some "5"⟩ ⟨2026, 1, 1, 12, 0, 0, 0⟩
      = .error "Invalid year: 1999. Must be between 2000-2100."
    ∧ buildTimeframeFilter ⟨none, none, some "not-a-date", none, none⟩ ⟨2026, 1, 1, 12, 0, 0, 0⟩
      = .error "Invalid date format: not-a-date. Use YYYY-MM-DD format." := by
  refine ⟨?_, ?_, ?_⟩
  · exact (C8_timeframe_validation_errors
      ⟨none, none, none, some "2024", some "13"⟩ ⟨2026, 1, 1, 12, 0, 0, 0⟩).2.2.2.2.2.1
      "2024" "13" 2024 13 rfl rfl rfl rfl (by decide) rfl (by decide)
      rfl (by decide) (by decide) rfl (by decide)
  · exact (C8_timeframe_validation_errors
      ⟨none, none, none, some "1999", some "5"⟩ ⟨2026, 1, 1, 12, 0, 0, 0⟩).2.2.2.1
      "1999" "5" 1999 rfl rfl rfl rfl (by decide) rfl (by decide) rfl (by decide)
  · exact (C8_timeframe_validation_errors
      ⟨none, none, some "not-a-date", none, none⟩ ⟨2026, 1, 1, 12, 0, 0, 0⟩).2.1
      "not-a-date" rfl rfl rfl (by decide) rfl

theorem findCustomer_updCustomerStats (db : CustomerDB) (cid : String) (tp : Nat)
    (ts : Int) (fp lp : Option Nat) (c : Customer) (h : findCustomer db cid = some c) :
    findCustomer (updCustomerStats db cid tp ts fp lp) cid
      = some { c with
          totalPurchases := tp
          totalSpent := ts
          firstPurchaseDate := fp
          lastPurchaseDate := lp } := by
  exact findCustomer_map_replace db cid
    (fun x => { x with
      totalPurchases := tp
      totalSpent := ts
      firstPurchaseDate := fp
      lastPurchaseDate := lp })
    (fun x hx => hx) c h

theorem sorted_head_le (v : SaleRec) (vs : List SaleRec)
    (h : List.Pairwise saleLE (v :: vs)) :
    ∀ x ∈ v :: vs, v.createdAt ≤ x.createdAt := by
  intro x hx
  rcases List.mem_cons.mp hx with hx | hx
  · subst hx; exact Nat.le_refl _
  · exact (List.pairwise_cons.mp h).1 x hx

theorem getLastD_mem (v : SaleRec) (vs : List SaleRec) : vs.getLastD v ∈ v :: vs := by
  induction vs generalizing v with
  | nil => simp
  | cons w ws ih =>
    rw [List.getLastD_cons]
    exact List.mem_cons_of_mem v (ih w)

theorem sorted_le_getLastD (v : SaleRec) (vs : List SaleRec)
    (h : List.Pairwise saleLE (v :: vs)) :
    ∀ x ∈ v :: vs, x.createdAt ≤ (vs.getLastD v).createdAt := by
  induction vs generalizing v with
  | nil => intro x hx; simp at hx; subst hx; exact Nat.le_refl _
  | cons w ws ih =>
    intro x hx
    rw [List.getLastD_cons]
    have htail : List.Pairwise saleLE (w :: ws) := (List.pairwise_cons.mp h).2
    rcases List.mem_cons.mp hx with hx | hx
    · subst hx
      have hvw : saleLE x w := (List.pairwise_cons.mp h).1 w (by simp)
      exact Nat.le_trans hvw (ih w htail w (by simp))
    · exact ih w htail x hx
theorem recalc_filter_perm (sales : List SaleRec) (cid : String)
    (hdom : ∀ s ∈ sales, s.status ≠ some SStatus.refunded
      ∧ s.status ≠ some SStatus.expenseTag) :
    ((sales.filter (fun s => s.customerId == some cid && querySetB s.status)).insertionSort
        saleLE).filter (fun s => safetyB s.status)
      |>.Perm (sales.filter (fun s => s.customerId == some cid && safetyB s.status)) := by
  have h1 : ((sales.filter (fun s => s.customerId == some cid && querySetB s.status)).insertionSort
        saleLE).filter (fun s => safetyB s.status)
      |>.Perm ((sales.filter (fun s => s.customerId == some cid && querySetB s.status)).filter
          (fun s => safetyB s.status)) :=
    (List.perm_insertionSort saleLE _).filter _
  have h2 : (sales.filter (fun s => s.customerId == some cid && querySetB s.status)).filter
        (fun s => safetyB s.status)
      = sales.filter (fun s => s.customerId == some cid && safetyB s.status) := by
    rw [List.filter_filter]
    apply List.filter_congr
    intro s hs
    rcases hdom s hs with ⟨hr, he⟩
    rcases hst : s.status with _ | st
    · simp [safetyB, querySetB]
    · cases st <;> simp_all [safetyB, querySetB, Bool.and_comm]
  rw [h2] at h1
  exact h1

/-- C5: `recalculateCustomerStats` replaces the four aggregate fields of
the counterparty with the count, the summed totals, and the earliest and
latest creation dates over exactly the customer's sales whose status is
neither voided nor corrected, and resets the fields to zero and null
dates when that set is empty.  The domain hypothesis records that no
handler ever stores the enum's unreachable "refunded"/"expense" statuses
on a customer-linked sale. -/
theorem C5_recalculate_customer_stats_is_fold_over_valid
    (sales : List SaleRec) (customers : CustomerDB) (cid : String) (c : Customer)
    (hdom : ∀ s ∈ sales, s.status ≠ some SStatus.refunded
      ∧ s.status ≠ some SStatus.expenseTag)
    (hc : findCustomer customers cid = some c) :
    (sales.filter (fun s => s.customerId == some cid && safetyB s.status) = [] →
      findCustomer (recalculateCustomerStats sales customers cid) cid
        = some { c with
            totalPurchases := 0
            totalSpent := 0
            firstPurchaseDate := none
            lastPurchaseDate := none })
    ∧ (sales.filter (fun s => s.customerId == some cid && safetyB s.status) ≠ [] →
        ∃ c', findCustomer (recalculateCustomerStats sales customers cid) cid = some c'
          ∧ c'.totalPurchases
              = (sales.filter (fun s => s.customerId == some cid && safetyB s.status)).length
          ∧ c'.totalSpent
              = ((sales.filter (fun s => s.customerId == some cid && safetyB s.status)).map
                  (·.total)).sum
          ∧ (∃ m, c'.firstPurchaseDate = some m
              ∧ m ∈ (sales.filter (fun s => s.customerId == some cid && safetyB s.status)).map
                  (·.createdAt)
              ∧ ∀ x ∈ (sales.filter (fun s => s.customerId == some cid && safetyB s.status)).map
                  (·.createdAt), m ≤ x)
          ∧ (∃ M, c'.lastPurchaseDate = some M
              ∧ M ∈ (sales.filter (fun s => s.customerId == some cid && safetyB s.status)).map
                  (·.createdAt)
              ∧ ∀ x ∈ (sales.filter (fun s => s.customerId == some cid && safetyB s.status)).map
                  (·.createdAt), x ≤ M)) := by
  have hperm := recalc_filter_perm sales cid hdom
  have hsorted : List.Pairwise saleLE
      ((sales.filter (fun s => s.customerId == some cid && querySetB s.status)).insertionSort
        saleLE) :=
    List.sorted_insertionSort saleLE _
  have hsf : List.Pairwise saleLE
      (((sales.filter (fun s => s.customerId == some cid && querySetB s.status)).insertionSort
        saleLE).filter (fun s => safetyB s.status)) :=
    hsorted.filter _
  rcases hV : ((sales.filter
      (fun s => s.customerId == some cid && querySetB s.status)).insertionSort
        saleLE).filter (fun s => safetyB s.status) with _ | ⟨v, vs⟩
  · rw [hV] at hperm
    have hVnil : sales.filter (fun s => s.customerId == some cid && safetyB s.status) = [] :=
      List.perm_nil.mp hperm.symm
    constructor
    · intro _
      simp only [recalculateCustomerStats]
      rw [hV]
      exact findCustomer_updCustomerStats customers cid 0 0 none none c hc
    · intro hne
      exact absurd hVnil hne
  · rw [hV] at hperm hsf
    have hVne : sales.filter (fun s => s.customerId == some cid && safetyB s.status) ≠ [] := by
      intro h0
      rw [h0] at hperm
      exact absurd (List.perm_nil.mp hperm) (by simp)
    refine ⟨fun h0 => absurd h0 hVne, fun _ => ?_⟩
    refine ⟨{ c with
      totalPurchases := (v :: vs).length
      totalSpent := ((v :: vs).map (·.total)).sum
      firstPurchaseDate := some v.createdAt
      lastPurchaseDate := some ((vs.getLastD v).createdAt) }, ?_, ?_, ?_, ?_, ?_⟩
    · simp only [recalculateCustomerStats]
      rw [hV]
      exact findCustomer_updCustomerStats customers cid _ _ _ _ c hc
    · exact hperm.length_eq
    · exact (hperm.map (·.total)).sum_eq
    · refine ⟨v.createdAt, rfl, ?_, ?_⟩
      · exact List.mem_map_of_mem _ (hperm.mem_iff.mp (by simp))
      · intro x hx
        rcases List.mem_map.mp hx with ⟨s, hs, hsx⟩
        rw [← hsx]
        exact sorted_head_le v vs hsf s (hperm.mem_iff.mpr hs)
    · refine ⟨(vs.getLastD v).createdAt, rfl, ?_, ?_⟩
      · exact List.mem_map_of_mem _ (hperm.mem_iff.mp (getLastD_mem v vs))
      · intro x hx
        rcases List.mem_map.mp hx with ⟨s, hs, hsx⟩
        rw [← hsx]
        exact sorted_le_getLastD v vs hsf s (hperm.mem_iff.mpr hs)

/-- C5 witness: the theorem applied to the spec's scenario — a valid sale
of total 100 and a voided sale of total 50 for the same counterparty
yield totalSpent 100, not 150. -/
theorem C5_recalculate_customer_stats_is_fold_over_valid_witness :
    (c5Sales.filter (fun s => s.customerId == some "c" && safetyB s.status) ≠ [])
    ∧ ((c5Sales.filter (fun s => s.customerId == some "c" && safetyB s.status)).map
        (·.total)).sum = 100
    ∧ ((100 : Int) ≠ 150)
    ∧ (∃ c', findCustomer (recalculateCustomerStats c5Sales c5Customers "c") "c" = some c'
        ∧ c'.totalPurchases
            = (c5Sales.filter (fun s => s.customerId == some "c" && safetyB s.status)).length
        ∧ c'.totalSpent
            = ((c5Sales.filter (fun s => s.customerId == some "c" && safetyB s.status)).map
                (·.total)).sum
        ∧ (∃ m, c'.firstPurchaseDate = some m
            ∧ m ∈ (c5Sales.filter
                (fun s => s.customerId == some "c" && safetyB s.status)).map (·.createdAt)
            ∧ ∀ x ∈ (c5Sales.filter
                (fun s => s.customerId == some "c" && safetyB s.status)).map (·.createdAt),
                m ≤ x)
        ∧ (∃ M, c'.lastPurchaseDate = some M
            ∧ M ∈ (c5Sales.filter
                (fun s => s.customerId == some "c" && safetyB s.status)).map (·.createdAt)
            ∧ ∀ x ∈ (c5Sales.filter
                (fun s => s.customerId == some "c" && safetyB s.status)).map (·.createdAt),
                x ≤ M)) := by
  refine ⟨by decide, by decide, by decide, ?_⟩
  exact (C5_recalculate_customer_stats_is_fold_over_valid c5Sales c5Customers "c"
    ⟨"c", "N", "", 7, 999, some 1, some 2⟩ (by decide) rfl).2 (by decide)
